import Mathlib

/-!
Verification of the mortgage amortization core.

Source functions modelled (shallow embedding):
* `utils/calculation_utils.py`: `get_applicable_interest_rate`, `calculate_amortization`
* `utils/date_utils.py`: `get_payment_date`
* `app.py`: the duplicate copies of the same functions (namespace `App`).

Modelling conventions:
* Python floats are embedded as exact rationals (`ℚ`).
* Calendar dates are embedded as integers (month-granular timeline); the engine
  only ever compares dates with `≤` and advances the start date by whole months,
  so `get_payment_date start m = start + (m - 1)`.
* A Python runtime error (`ZeroDivisionError` from a vanishing annuity
  denominator, or the `sorted_rates[-1]` `IndexError` on an empty rate list)
  is embedded as `none`; a normal return is `some`.
* The Python dict `overpayments` (read only via `overpayments.get(m, 0)`) is
  embedded as a total function `ℕ → ℚ`.
* The loop reads `schedule[-1].get('Rate', None)` and the loop-local
  `prev_monthly_payment`; these are threaded through the recursion as the
  `last_rate` and `prev_monthly_payment` arguments (the rate of the most
  recently appended record, `none` while the schedule is empty).
  The loop-local `monthly_payment` of each iteration is kept on the record in
  the extra field `monthly_payment` (it is not a column of the returned
  DataFrame; all other fields are exactly the record's columns, minus the
  purely cosmetic `Date_Str` string).
* The `while remaining_balance > 0 and month_counter < 1000` guard is embedded
  with an explicit fuel argument, initially `1000`, kept equal to
  `1000 - month_counter` so that `month_counter < 1000` is `0 < fuel`.
-/

/-- One entry of the variable interest-rate schedule: the Python dict
`{'rate': r, 'start_date': d}` (rate is an annual percentage). -/
structure RateEntry where
  rate : ℚ
  start_date : ℤ
  deriving DecidableEq, Repr

/-- One row appended to `schedule` by `calculate_amortization`, i.e. the dict
with keys Month, Date, Rate, Payment, Principal, Interest, Total Interest,
Balance, Overpayment (the `Date_Str` column is a string rendering of `date`
and is omitted; `monthly_payment` is the loop-local variable of the iteration
that produced the record, carried here for specification purposes). -/
structure PaymentRecord where
  month : ℕ
  date : ℤ
  rate : ℚ
  payment : ℚ
  principal : ℚ
  interest : ℚ
  total_interest : ℚ
  balance : ℚ
  overpayment : ℚ
  monthly_payment : ℚ
  deriving DecidableEq, Repr

/-- `utils/date_utils.py`: `get_payment_date(start_date, month_number)` is
`start_date + relativedelta(months=month_number - 1)`. -/
def get_payment_date (start_date : ℤ) (month_number : ℕ) : ℤ :=
  start_date + (month_number : ℤ) - 1

/-- The comparator of `sorted(interest_rates, key=lambda x: x['start_date'], reverse=True)`:
descending start dates. -/
def rate_desc (a b : RateEntry) : Prop :=
  b.start_date ≤ a.start_date

instance : DecidableRel rate_desc :=
  fun a b => inferInstanceAs (Decidable (b.start_date ≤ a.start_date))

instance : IsTotal RateEntry rate_desc :=
  ⟨fun a b => le_total b.start_date a.start_date⟩

instance : IsTrans RateEntry rate_desc :=
  ⟨fun _ _ _ h₁ h₂ => le_trans h₂ h₁⟩

/-- `utils/calculation_utils.py` lines 6-17 (`get_applicable_interest_rate`):
sort newest-to-oldest, return the first rate whose start date is `≤ date`,
falling back to `sorted_rates[-1]` (the earliest entry).  `none` models the
`IndexError` raised on an empty list. -/
def get_applicable_interest_rate (date : ℤ) (interest_rates : List RateEntry) : Option ℚ :=
  let sorted_rates := interest_rates.insertionSort rate_desc
  match sorted_rates.find? (fun rate_info => decide (rate_info.start_date ≤ date)) with
  | some rate_info => some rate_info.rate
  | none => sorted_rates.getLast?.map (fun rate_info => rate_info.rate)

/-- The payment-recomputation block of `calculate_amortization` (lines 48-55):
the annuity formula when the remaining term is positive (with `none` modelling
the `ZeroDivisionError` when its denominator `(1+r)^n - 1` vanishes), else
`balance * (1 + r)`. -/
def recompute_payment (remaining_balance monthly_interest_rate : ℚ) (remaining_term : ℤ) : Option ℚ :=
  if 0 < remaining_term then
    let den := (1 + monthly_interest_rate) ^ remaining_term.toNat - 1
    if den = 0 then none
    else some (remaining_balance *
      (monthly_interest_rate * (1 + monthly_interest_rate) ^ remaining_term.toNat) / den)
  else
    some (remaining_balance * (1 + monthly_interest_rate))

/-- One iteration of the `while` loop of `calculate_amortization`
(`utils/calculation_utils.py` lines 36-84), for the (already incremented)
`month_counter`: resolve the rate, recompute or reuse the monthly payment,
split interest/principal, apply the one-time overpayment and build the record. -/
def amortizeStep (interest_rates : List RateEntry) (total_months : ℤ) (start_date : ℤ)
    (extra_payment : ℚ) (overpayments : ℕ → ℚ) (month_counter : ℕ)
    (remaining_balance total_interest : ℚ)
    (prev_monthly_payment last_rate : Option ℚ) : Option PaymentRecord :=
  let payment_date := get_payment_date start_date month_counter
  match get_applicable_interest_rate payment_date interest_rates with
  | none => none
  | some applicable_rate =>
    let monthly_interest_rate := applicable_rate / 100 / 12
    let payment? : Option ℚ :=
      if prev_monthly_payment = none ∨ some applicable_rate ≠ last_rate then
        recompute_payment remaining_balance monthly_interest_rate
          (total_months - (month_counter : ℤ) + 1)
      else
        prev_monthly_payment
    match payment? with
    | none => none
    | some monthly_payment =>
      let interest_payment := remaining_balance * monthly_interest_rate
      let principal_payment :=
        min (monthly_payment - interest_payment + extra_payment) remaining_balance
          + overpayments month_counter
      some {
        month := month_counter
        date := payment_date
        rate := applicable_rate
        payment := interest_payment + principal_payment
        principal := principal_payment
        interest := interest_payment
        total_interest := total_interest + interest_payment
        balance := remaining_balance - principal_payment
        overpayment := overpayments month_counter
        monthly_payment := monthly_payment }

/-- The `while remaining_balance > 0 and month_counter < 1000` loop of
`calculate_amortization`, producing the records still to be appended.  The
fuel is `1000 - month_counter`. -/
def amortizeLoop (interest_rates : List RateEntry) (total_months : ℤ) (start_date : ℤ)
    (extra_payment : ℚ) (overpayments : ℕ → ℚ) :
    ℕ → ℕ → ℚ → ℚ → Option ℚ → Option ℚ → Option (List PaymentRecord)
  | 0, _, _, _, _, _ => some []
  | fuel + 1, month_counter, remaining_balance, total_interest,
      prev_monthly_payment, last_rate =>
    if 0 < remaining_balance then
      match amortizeStep interest_rates total_months start_date extra_payment overpayments
          (month_counter + 1) remaining_balance total_interest
          prev_monthly_payment last_rate with
      | none => none
      | some rec =>
        (amortizeLoop interest_rates total_months start_date extra_payment overpayments
            fuel (month_counter + 1) rec.balance rec.total_interest
            (some rec.monthly_payment) (some rec.rate)).map
          (fun rest => rec :: rest)
    else some []

/-- The `interest_rates is None` default of `calculate_amortization` (lines
21-23): a single entry built from the scalar rate and the start date. -/
def effective_rates (interest_rate : ℚ) (start_date : ℤ)
    (interest_rates : Option (List RateEntry)) : List RateEntry :=
  match interest_rates with
  | none => [{ rate := interest_rate, start_date := start_date }]
  | some rates => rates

/-- `utils/calculation_utils.py` lines 19-89 (`calculate_amortization`); the
returned list is the `schedule` from which the `pd.DataFrame` is built, `none`
models an uncaught runtime error. -/
def calculate_amortization (loan_amount interest_rate : ℚ) (total_months : ℤ)
    (start_date : ℤ) (extra_payment : ℚ) (overpayments : ℕ → ℚ)
    (interest_rates : Option (List RateEntry)) : Option (List PaymentRecord) :=
  amortizeLoop (effective_rates interest_rate start_date interest_rates)
    total_months start_date extra_payment overpayments 1000 0 loan_amount 0 none none

namespace App

/-- `app.py` lines 163-165: its own copy of `get_payment_date`. -/
def get_payment_date (start_date : ℤ) (month_number : ℕ) : ℤ :=
  start_date + (month_number : ℤ) - 1

/-- `app.py` lines 177-187: the duplicate of `get_applicable_interest_rate`. -/
def get_applicable_interest_rate (date : ℤ) (interest_rates : List RateEntry) : Option ℚ :=
  let sorted_rates := interest_rates.insertionSort rate_desc
  match sorted_rates.find? (fun rate_info => decide (rate_info.start_date ≤ date)) with
  | some rate_info => some rate_info.rate
  | none => sorted_rates.getLast?.map (fun rate_info => rate_info.rate)

/-- The payment-recomputation block of `app.py`'s `calculate_amortization`
(lines 215-226). -/
def recompute_payment (remaining_balance monthly_interest_rate : ℚ) (remaining_term : ℤ) : Option ℚ :=
  if 0 < remaining_term then
    let den := (1 + monthly_interest_rate) ^ remaining_term.toNat - 1
    if den = 0 then none
    else some (remaining_balance *
      (monthly_interest_rate * (1 + monthly_interest_rate) ^ remaining_term.toNat) / den)
  else
    some (remaining_balance * (1 + monthly_interest_rate))

/-- One iteration of the `while` loop of `app.py`'s `calculate_amortization`
(lines 205-256). -/
def amortizeStep (interest_rates : List RateEntry) (total_months : ℤ) (start_date : ℤ)
    (extra_payment : ℚ) (overpayments : ℕ → ℚ) (month_counter : ℕ)
    (remaining_balance total_interest : ℚ)
    (prev_monthly_payment last_rate : Option ℚ) : Option PaymentRecord :=
  let payment_date := App.get_payment_date start_date month_counter
  match App.get_applicable_interest_rate payment_date interest_rates with
  | none => none
  | some applicable_rate =>
    let monthly_interest_rate := applicable_rate / 100 / 12
    let payment? : Option ℚ :=
      if prev_monthly_payment = none ∨ some applicable_rate ≠ last_rate then
        App.recompute_payment remaining_balance monthly_interest_rate
          (total_months - (month_counter : ℤ) + 1)
      else
        prev_monthly_payment
    match payment? with
    | none => none
    | some monthly_payment =>
      let interest_payment := remaining_balance * monthly_interest_rate
      let principal_payment :=
        min (monthly_payment - interest_payment + extra_payment) remaining_balance
          + overpayments month_counter
      some {
        month := month_counter
        date := payment_date
        rate := applicable_rate
        payment := interest_payment + principal_payment
        principal := principal_payment
        interest := interest_payment
        total_interest := total_interest + interest_payment
        balance := remaining_balance - principal_payment
        overpayment := overpayments month_counter
        monthly_payment := monthly_payment }

/-- The `while` loop of `app.py`'s `calculate_amortization` (lines 205-256). -/
def amortizeLoop (interest_rates : List RateEntry) (total_months : ℤ) (start_date : ℤ)
    (extra_payment : ℚ) (overpayments : ℕ → ℚ) :
    ℕ → ℕ → ℚ → ℚ → Option ℚ → Option ℚ → Option (List PaymentRecord)
  | 0, _, _, _, _, _ => some []
  | fuel + 1, month_counter, remaining_balance, total_interest,
      prev_monthly_payment, last_rate =>
    if 0 < remaining_balance then
      match App.amortizeStep interest_rates total_months start_date extra_payment overpayments
          (month_counter + 1) remaining_balance total_interest
          prev_monthly_payment last_rate with
      | none => none
      | some rec =>
        (App.amortizeLoop interest_rates total_months start_date extra_payment overpayments
            fuel (month_counter + 1) rec.balance rec.total_interest
            (some rec.monthly_payment) (some rec.rate)).map
          (fun rest => rec :: rest)
    else some []

/-- The `interest_rates is None` default of `app.py`'s `calculate_amortization`
(lines 192-194). -/
def effective_rates (interest_rate : ℚ) (start_date : ℤ)
    (interest_rates : Option (List RateEntry)) : List RateEntry :=
  match interest_rates with
  | none => [{ rate := interest_rate, start_date := start_date }]
  | some rates => rates

/-- `app.py` lines 190-259: the duplicate of `calculate_amortization`. -/
def calculate_amortization (loan_amount interest_rate : ℚ) (total_months : ℤ)
    (start_date : ℤ) (extra_payment : ℚ) (overpayments : ℕ → ℚ)
    (interest_rates : Option (List RateEntry)) : Option (List PaymentRecord) :=
  App.amortizeLoop (App.effective_rates interest_rate start_date interest_rates)
    total_months start_date extra_payment overpayments 1000 0 loan_amount 0 none none

end App

/-! ## Observation predicates used by the claim statements -/

/-- Every record's reported payment is the sum of its principal and interest
components. -/
def payment_splits (s : List PaymentRecord) : Prop :=
  ∀ rec ∈ s, rec.payment = rec.principal + rec.interest

/-- The reported balances are chained: each record's balance is the balance
before its period minus its principal component (the balance before the first
period being `B`). -/
def balance_chain (B : ℚ) : List PaymentRecord → Prop
  | [] => True
  | rec :: rest => rec.balance = B - rec.principal ∧ balance_chain rec.balance rest

/-- Every record except the last reports a strictly positive balance, i.e. the
iteration stopped as soon as the balance reached `≤ 0`. -/
def positive_before_last : List PaymentRecord → Prop
  | [] => True
  | [_] => True
  | rec :: rest => 0 < rec.balance ∧ positive_before_last rest

/-- The reported balances are non-increasing from each period to the next. -/
def balances_nonincreasing (s : List PaymentRecord) : Prop :=
  s.Chain' (fun a b => b.balance ≤ a.balance)

/-- The per-period payment rule of the engine, as stated by the spec, for a
schedule whose head record belongs to period `month_counter`, given the balance
before that period and the previous period's payment and rate (`none` on the
first period): the payment is recomputed by the annuity formula from the
current balance and the remaining term exactly when the resolved rate differs
from the previous period's recorded rate (or on the first period), with the
`balance * (1 + r)` special case for a non-positive remaining term; otherwise
the previous period's payment is reused unchanged. -/
def payment_rule (total_months : ℤ) :
    ℕ → ℚ → Option ℚ → Option ℚ → List PaymentRecord → Prop
  | _, _, _, _, [] => True
  | month_counter, B, prev_payment, prev_rate, rec :: rest =>
      let r := rec.rate / 100 / 12
      let n : ℤ := total_months - (month_counter : ℤ) + 1
      ((prev_payment = none ∨ some rec.rate ≠ prev_rate) →
        (if 0 < n then
          rec.monthly_payment = B * (r * (1 + r) ^ n.toNat) / ((1 + r) ^ n.toNat - 1)
        else
          rec.monthly_payment = B * (1 + r))) ∧
      ((¬ (prev_payment = none ∨ some rec.rate ≠ prev_rate)) →
        prev_payment = some rec.monthly_payment) ∧
      payment_rule total_months (month_counter + 1) rec.balance
        (some rec.monthly_payment) (some rec.rate) rest

/-- Total interest paid over a schedule: the cumulative interest reported by
its last record (`0` for an empty schedule). -/
def final_total_interest (s : List PaymentRecord) : ℚ :=
  s.getLast?.elim 0 (fun rec => rec.total_interest)

/-- No record reports a negative balance. -/
def balances_nonneg (s : List PaymentRecord) : Prop :=
  ∀ rec ∈ s, 0 ≤ rec.balance

/-- If the 1000-period safety bound was not hit, the final record reports a
balance of exactly 0. -/
def final_balance_zero_unless_bound (s : List PaymentRecord) : Prop :=
  s.length < 1000 → ∀ rec, s.getLast? = some rec → rec.balance = 0

/-- What the resolver must return according to the spec: the rate of the most
recent entry whose effective date is `≤ date`, or, when the date precedes every
entry, the rate of the chronologically earliest entry. -/
def applicable_rate_spec (date : ℤ) (interest_rates : List RateEntry) : Prop :=
  ∃ e ∈ interest_rates,
    get_applicable_interest_rate date interest_rates = some e.rate ∧
    ((e.start_date ≤ date ∧
        ∀ x ∈ interest_rates, x.start_date ≤ date → x.start_date ≤ e.start_date) ∨
      ((∀ x ∈ interest_rates, date < x.start_date) ∧
        ∀ x ∈ interest_rates, e.start_date ≤ x.start_date))

/-- Relation between the loop states of two runs that differ only in the
recurring extra payment (run 2 paying at least as much extra as run 1): either
both are before their first period, or both carry a payment fixed at the last
recomputation, with `j + 1` an annuity-theoretic bound on the number of
periods either balance can still survive at its payment, and the payment gap
`p₁ - p₂` dominated by the balance gap `B₁ - B₂` over the next `j` periods
(`ρ` is the previous period's annual rate). -/
def extra_payment_pair_state (B₁ B₂ : ℚ) (prev₁ prev₂ last_rate : Option ℚ) : Prop :=
  (prev₁ = none ∧ prev₂ = none) ∨
  (∃ p₁ p₂ ρ j, prev₁ = some p₁ ∧ prev₂ = some p₂ ∧ last_rate = some ρ ∧ 0 < ρ ∧
    B₁ * (1 + ρ / 100 / 12) ^ (j + 1)
      ≤ p₁ * ∑ i ∈ Finset.range (j + 1), (1 + ρ / 100 / 12) ^ i ∧
    B₂ * (1 + ρ / 100 / 12) ^ (j + 1)
      ≤ p₂ * ∑ i ∈ Finset.range (j + 1), (1 + ρ / 100 / 12) ^ i ∧
    (p₁ - p₂) * ∑ i ∈ Finset.range j, (1 + ρ / 100 / 12) ^ i
      ≤ (B₁ - B₂) * (1 + ρ / 100 / 12) ^ j)

/-! ## Basic lemmas about the embedding -/

theorem amortizeLoop_zero (interest_rates : List RateEntry) (total_months start_date : ℤ)
    (extra_payment : ℚ) (overpayments : ℕ → ℚ) (month_counter : ℕ)
    (remaining_balance total_interest : ℚ) (prev_monthly_payment last_rate : Option ℚ) :
    amortizeLoop interest_rates total_months start_date extra_payment overpayments
      0 month_counter remaining_balance total_interest prev_monthly_payment last_rate
      = some [] := rfl

theorem amortizeLoop_succ (interest_rates : List RateEntry) (total_months start_date : ℤ)
    (extra_payment : ℚ) (overpayments : ℕ → ℚ) (fuel month_counter : ℕ)
    (remaining_balance total_interest : ℚ) (prev_monthly_payment last_rate : Option ℚ) :
    amortizeLoop interest_rates total_months start_date extra_payment overpayments
      (fuel + 1) month_counter remaining_balance total_interest prev_monthly_payment last_rate
      =
      if 0 < remaining_balance then
        match amortizeStep interest_rates total_months start_date extra_payment overpayments
            (month_counter + 1) remaining_balance total_interest
            prev_monthly_payment last_rate with
        | none => none
        | some rec =>
          (amortizeLoop interest_rates total_months start_date extra_payment overpayments
              fuel (month_counter + 1) rec.balance rec.total_interest
              (some rec.monthly_payment) (some rec.rate)).map
            (fun rest => rec :: rest)
      else some [] := rfl

/-- Everything `amortizeStep` guarantees about a successfully produced record. -/
theorem amortizeStep_some_spec {interest_rates : List RateEntry} {total_months start_date : ℤ}
    {extra_payment : ℚ} {overpayments : ℕ → ℚ} {month_counter : ℕ}
    {remaining_balance total_interest : ℚ} {prev_monthly_payment last_rate : Option ℚ}
    {rec : PaymentRecord}
    (h : amortizeStep interest_rates total_months start_date extra_payment overpayments
      month_counter remaining_balance total_interest prev_monthly_payment last_rate
      = some rec) :
    get_applicable_interest_rate (get_payment_date start_date month_counter) interest_rates
      = some rec.rate ∧
    rec.month = month_counter ∧
    rec.date = get_payment_date start_date month_counter ∧
    rec.interest = remaining_balance * (rec.rate / 100 / 12) ∧
    rec.principal = min (rec.monthly_payment - rec.interest + extra_payment) remaining_balance
      + overpayments month_counter ∧
    rec.payment = rec.interest + rec.principal ∧
    rec.total_interest = total_interest + rec.interest ∧
    rec.balance = remaining_balance - rec.principal ∧
    rec.overpayment = overpayments month_counter ∧
    ((prev_monthly_payment = none ∨ some rec.rate ≠ last_rate) →
      recompute_payment remaining_balance (rec.rate / 100 / 12)
        (total_months - (month_counter : ℤ) + 1) = some rec.monthly_payment) ∧
    ((¬ (prev_monthly_payment = none ∨ some rec.rate ≠ last_rate)) →
      prev_monthly_payment = some rec.monthly_payment) := by
  simp only [amortizeStep] at h
  rcases hga : get_applicable_interest_rate (get_payment_date start_date month_counter)
      interest_rates with _ | ar
  · rw [hga] at h
    simp at h
  · rw [hga] at h
    simp only at h
    by_cases hc : (prev_monthly_payment = none ∨ some ar ≠ last_rate)
    · rw [if_pos hc] at h
      rcases hrp : recompute_payment remaining_balance (ar / 100 / 12)
          (total_months - (month_counter : ℤ) + 1) with _ | mp
      · rw [hrp] at h
        simp at h
      · rw [hrp] at h
        simp only [Option.some.injEq] at h
        subst h
        dsimp only
        refine ⟨rfl, rfl, rfl, rfl, rfl, rfl, rfl, rfl, rfl, ?_, ?_⟩
        · intro _; exact hrp
        · intro hnc; exact absurd hc hnc
    · rw [if_neg hc] at h
      push_neg at hc
      obtain ⟨hp, har⟩ := hc
      rcases hpv : prev_monthly_payment with _ | p
      · exact absurd hpv hp
      · rw [hpv] at h
        simp only [Option.some.injEq] at h
        subst h
        dsimp only
        refine ⟨rfl, rfl, rfl, rfl, rfl, rfl, rfl, rfl, rfl, ?_, ?_⟩
        · intro habs
          rcases habs with h1 | h2
          · exact Option.noConfusion h1
          · exact absurd har h2
        · intro _; rfl

theorem app_get_payment_date_eq (start_date : ℤ) (month_number : ℕ) :
    App.get_payment_date start_date month_number = get_payment_date start_date month_number := rfl

theorem app_get_applicable_interest_rate_eq (date : ℤ) (interest_rates : List RateEntry) :
    App.get_applicable_interest_rate date interest_rates
      = get_applicable_interest_rate date interest_rates := rfl

theorem app_recompute_payment_eq (remaining_balance monthly_interest_rate : ℚ)
    (remaining_term : ℤ) :
    App.recompute_payment remaining_balance monthly_interest_rate remaining_term
      = recompute_payment remaining_balance monthly_interest_rate remaining_term := rfl

theorem app_amortizeStep_eq (interest_rates : List RateEntry) (total_months start_date : ℤ)
    (extra_payment : ℚ) (overpayments : ℕ → ℚ) (month_counter : ℕ)
    (remaining_balance total_interest : ℚ) (prev_monthly_payment last_rate : Option ℚ) :
    App.amortizeStep interest_rates total_months start_date extra_payment overpayments
        month_counter remaining_balance total_interest prev_monthly_payment last_rate
      = amortizeStep interest_rates total_months start_date extra_payment overpayments
        month_counter remaining_balance total_interest prev_monthly_payment last_rate := rfl

theorem app_amortizeLoop_succ (interest_rates : List RateEntry) (total_months start_date : ℤ)
    (extra_payment : ℚ) (overpayments : ℕ → ℚ) (fuel month_counter : ℕ)
    (remaining_balance total_interest : ℚ) (prev_monthly_payment last_rate : Option ℚ) :
    App.amortizeLoop interest_rates total_months start_date extra_payment overpayments
      (fuel + 1) month_counter remaining_balance total_interest prev_monthly_payment last_rate
      =
      if 0 < remaining_balance then
        match App.amortizeStep interest_rates total_months start_date extra_payment overpayments
            (month_counter + 1) remaining_balance total_interest
            prev_monthly_payment last_rate with
        | none => none
        | some rec =>
          (App.amortizeLoop interest_rates total_months start_date extra_payment overpayments
              fuel (month_counter + 1) rec.balance rec.total_interest
              (some rec.monthly_payment) (some rec.rate)).map
            (fun rest => rec :: rest)
      else some [] := rfl

theorem app_amortizeLoop_eq (interest_rates : List RateEntry) (total_months start_date : ℤ)
    (extra_payment : ℚ) (overpayments : ℕ → ℚ) :
    ∀ (fuel month_counter : ℕ) (remaining_balance total_interest : ℚ)
      (prev_monthly_payment last_rate : Option ℚ),
    App.amortizeLoop interest_rates total_months start_date extra_payment overpayments
        fuel month_counter remaining_balance total_interest prev_monthly_payment last_rate
      = amortizeLoop interest_rates total_months start_date extra_payment overpayments
        fuel month_counter remaining_balance total_interest prev_monthly_payment last_rate := by
  intro fuel
  induction fuel with
  | zero => intro _ _ _ _ _; rfl
  | succ n ih =>
    intro month_counter remaining_balance total_interest prev_monthly_payment last_rate
    rw [app_amortizeLoop_succ, amortizeLoop_succ, app_amortizeStep_eq]
    by_cases hB : 0 < remaining_balance
    · rw [if_pos hB, if_pos hB]
      rcases amortizeStep interest_rates total_months start_date extra_payment overpayments
          (month_counter + 1) remaining_balance total_interest prev_monthly_payment
          last_rate with _ | rec
      · rfl
      · dsimp only
        rw [ih]
    · rw [if_neg hB, if_neg hB]

/-- C10: the copies of `get_applicable_interest_rate` and `calculate_amortization`
in `app.py` agree with the ones in `utils/calculation_utils.py` on every input. -/
theorem claim_c10_app_duplicates_extensionally_equal :
    (∀ (date : ℤ) (interest_rates : List RateEntry),
      App.get_applicable_interest_rate date interest_rates
        = get_applicable_interest_rate date interest_rates) ∧
    (∀ (loan_amount interest_rate : ℚ) (total_months start_date : ℤ)
      (extra_payment : ℚ) (overpayments : ℕ → ℚ)
      (interest_rates : Option (List RateEntry)),
      App.calculate_amortization loan_amount interest_rate total_months start_date
          extra_payment overpayments interest_rates
        = calculate_amortization loan_amount interest_rate total_months start_date
          extra_payment overpayments interest_rates) := by
  constructor
  · exact app_get_applicable_interest_rate_eq
  · intro loan_amount interest_rate total_months start_date extra_payment overpayments
      interest_rates
    unfold App.calculate_amortization calculate_amortization
    rw [app_amortizeLoop_eq]
    rfl

/-- Inversion of one unfolding of the loop. -/
theorem amortizeLoop_succ_inv {interest_rates : List RateEntry} {total_months start_date : ℤ}
    {extra_payment : ℚ} {overpayments : ℕ → ℚ} {fuel month_counter : ℕ}
    {remaining_balance total_interest : ℚ} {prev_monthly_payment last_rate : Option ℚ}
    {s : List PaymentRecord}
    (h : amortizeLoop interest_rates total_months start_date extra_payment overpayments
      (fuel + 1) month_counter remaining_balance total_interest prev_monthly_payment
      last_rate = some s) :
    (¬ 0 < remaining_balance ∧ s = []) ∨
    (0 < remaining_balance ∧ ∃ rec rest,
      amortizeStep interest_rates total_months start_date extra_payment overpayments
        (month_counter + 1) remaining_balance total_interest prev_monthly_payment
        last_rate = some rec ∧
      amortizeLoop interest_rates total_months start_date extra_payment overpayments
        fuel (month_counter + 1) rec.balance rec.total_interest
        (some rec.monthly_payment) (some rec.rate) = some rest ∧
      s = rec :: rest) := by
  rw [amortizeLoop_succ] at h
  by_cases hB : 0 < remaining_balance
  · rw [if_pos hB] at h
    rcases hstep : amortizeStep interest_rates total_months start_date extra_payment
        overpayments (month_counter + 1) remaining_balance total_interest
        prev_monthly_payment last_rate with _ | rec
    · rw [hstep] at h
      simp at h
    · rw [hstep] at h
      dsimp only at h
      rw [Option.map_eq_some'] at h
      obtain ⟨rest, hrest, hs⟩ := h
      exact Or.inr ⟨hB, rec, rest, rfl, hrest, hs.symm⟩
  · rw [if_neg hB] at h
    simp only [Option.some.injEq] at h
    exact Or.inl ⟨hB, h.symm⟩

/-- The loop produces the empty schedule exactly on exhausted fuel or a
non-positive entry balance. -/
theorem amortizeLoop_nil_inv {interest_rates : List RateEntry} {total_months start_date : ℤ}
    {extra_payment : ℚ} {overpayments : ℕ → ℚ} {fuel month_counter : ℕ}
    {remaining_balance total_interest : ℚ} {prev_monthly_payment last_rate : Option ℚ}
    (h : amortizeLoop interest_rates total_months start_date extra_payment overpayments
      (fuel + 1) month_counter remaining_balance total_interest prev_monthly_payment
      last_rate = some []) :
    ¬ 0 < remaining_balance := by
  rcases amortizeLoop_succ_inv h with ⟨hB, _⟩ | ⟨_, _, _, _, _, hcons⟩
  · exact hB
  · exact absurd hcons.symm (List.cons_ne_nil _ _)

theorem amortizeLoop_payment_splits_balance_chain
    {interest_rates : List RateEntry} {total_months start_date : ℤ}
    {extra_payment : ℚ} {overpayments : ℕ → ℚ} :
    ∀ (fuel month_counter : ℕ) (remaining_balance total_interest : ℚ)
      (prev_monthly_payment last_rate : Option ℚ) (s : List PaymentRecord),
    amortizeLoop interest_rates total_months start_date extra_payment overpayments
      fuel month_counter remaining_balance total_interest prev_monthly_payment
      last_rate = some s →
    payment_splits s ∧ balance_chain remaining_balance s := by
  intro fuel
  induction fuel with
  | zero =>
    intro _ _ _ _ _ s h
    rw [amortizeLoop_zero] at h
    simp only [Option.some.injEq] at h
    subst h
    exact ⟨fun _ hmem => absurd hmem (List.not_mem_nil _), trivial⟩
  | succ n ih =>
    intro month_counter remaining_balance total_interest prev_monthly_payment last_rate s h
    rcases amortizeLoop_succ_inv h with ⟨_, hnil⟩ | ⟨_, rec, rest, hstep, hrest, hs⟩
    · subst hnil
      exact ⟨fun _ hmem => absurd hmem (List.not_mem_nil _), trivial⟩
    · subst hs
      obtain ⟨_, _, _, _, _, hpay, _, hbal, _, _, _⟩ := amortizeStep_some_spec hstep
      obtain ⟨ihsplit, ihchain⟩ := ih _ _ _ _ _ _ hrest
      refine ⟨?_, hbal, ihchain⟩
      intro r hr
      rcases List.mem_cons.mp hr with hr | hr
      · subst hr
        rw [hpay, add_comm]
      · exact ihsplit r hr

/-- C7: in every successfully returned schedule, each record's payment equals
its principal component plus its interest component, and each record's balance
is the balance before its period (the loan amount for the first record, the
previous record's balance otherwise) minus its principal component. -/
theorem claim_c7_split_and_chain (loan_amount interest_rate : ℚ)
    (total_months start_date : ℤ) (extra_payment : ℚ) (overpayments : ℕ → ℚ)
    (interest_rates : Option (List RateEntry)) (s : List PaymentRecord)
    (h : calculate_amortization loan_amount interest_rate total_months start_date
      extra_payment overpayments interest_rates = some s) :
    payment_splits s ∧ balance_chain loan_amount s :=
  amortizeLoop_payment_splits_balance_chain 1000 0 loan_amount 0 none none s h


/-- Evaluation helper: the loop stops on a non-positive balance (any fuel). -/
theorem amortizeLoop_eval_nil (interest_rates : List RateEntry) (total_months start_date : ℤ)
    (extra_payment : ℚ) (overpayments : ℕ → ℚ) (fuel month_counter : ℕ)
    (remaining_balance total_interest : ℚ) (prev_monthly_payment last_rate : Option ℚ)
    (hB : ¬ 0 < remaining_balance) :
    amortizeLoop interest_rates total_months start_date extra_payment overpayments
      fuel month_counter remaining_balance total_interest prev_monthly_payment last_rate
      = some [] := by
  cases fuel with
  | zero => rfl
  | succ n => rw [amortizeLoop_succ, if_neg hB]

/-- Evaluation helper: one successful iteration prepends its record. -/
theorem amortizeLoop_eval_cons {interest_rates : List RateEntry} {total_months start_date : ℤ}
    {extra_payment : ℚ} {overpayments : ℕ → ℚ} {fuel month_counter : ℕ}
    {remaining_balance total_interest : ℚ} {prev_monthly_payment last_rate : Option ℚ}
    {rec : PaymentRecord} {rest : List PaymentRecord} (fuel' : ℕ)
    (hfuel : fuel = fuel' + 1) (hB : 0 < remaining_balance)
    (hstep : amortizeStep interest_rates total_months start_date extra_payment overpayments
      (month_counter + 1) remaining_balance total_interest prev_monthly_payment last_rate
      = some rec)
    (hrest : amortizeLoop interest_rates total_months start_date extra_payment overpayments
      fuel' (month_counter + 1) rec.balance rec.total_interest
      (some rec.monthly_payment) (some rec.rate) = some rest) :
    amortizeLoop interest_rates total_months start_date extra_payment overpayments
      fuel month_counter remaining_balance total_interest prev_monthly_payment last_rate
      = some (rec :: rest) := by
  subst hfuel
  rw [amortizeLoop_succ, if_pos hB, hstep]
  dsimp only
  rw [hrest]
  rfl

theorem claim_c7_witness :
    calculate_amortization 100 1200 1 0 0 (fun _ => 0) none = some
      [{ month := 1, date := 0, rate := 1200, payment := 200, principal := 100,
         interest := 100, total_interest := 100, balance := 0, overpayment := 0,
         monthly_payment := 200 }] ∧
    (payment_splits
      [{ month := 1, date := 0, rate := 1200, payment := 200, principal := 100,
         interest := 100, total_interest := 100, balance := 0, overpayment := 0,
         monthly_payment := 200 }] ∧
     balance_chain 100
      [{ month := 1, date := 0, rate := 1200, payment := 200, principal := 100,
         interest := 100, total_interest := 100, balance := 0, overpayment := 0,
         monthly_payment := 200 }]) := by
  have hrun : calculate_amortization 100 1200 1 0 0 (fun _ => 0) none = some
      [{ month := 1, date := 0, rate := 1200, payment := 200, principal := 100,
         interest := 100, total_interest := 100, balance := 0, overpayment := 0,
         monthly_payment := 200 }] := by
    unfold calculate_amortization
    refine amortizeLoop_eval_cons 999 (by norm_num) (by norm_num) ?_ ?_
    · norm_num [amortizeStep, effective_rates, get_applicable_interest_rate, get_payment_date,
        recompute_payment, List.insertionSort, List.orderedInsert, rate_desc, min_def,
        show (1:ℤ).toNat = 1 from rfl]
    · exact amortizeLoop_eval_nil _ _ _ _ _ _ _ _ _ _ _ (by norm_num)
  exact ⟨hrun, claim_c7_split_and_chain 100 1200 1 0 0 (fun _ => 0) none _ hrun⟩

/-- A non-empty schedule can only be produced from a positive entry balance. -/
theorem amortizeLoop_cons_pos {interest_rates : List RateEntry} {total_months start_date : ℤ}
    {extra_payment : ℚ} {overpayments : ℕ → ℚ} {fuel month_counter : ℕ}
    {remaining_balance total_interest : ℚ} {prev_monthly_payment last_rate : Option ℚ}
    {rec : PaymentRecord} {rest : List PaymentRecord}
    (h : amortizeLoop interest_rates total_months start_date extra_payment overpayments
      fuel month_counter remaining_balance total_interest prev_monthly_payment last_rate
      = some (rec :: rest)) :
    0 < remaining_balance := by
  cases fuel with
  | zero =>
    rw [amortizeLoop_zero] at h
    simp at h
  | succ n =>
    rcases amortizeLoop_succ_inv h with ⟨_, hnil⟩ | ⟨hB, _⟩
    · exact absurd hnil (List.cons_ne_nil _ _)
    · exact hB

theorem amortizeLoop_length_le {interest_rates : List RateEntry} {total_months start_date : ℤ}
    {extra_payment : ℚ} {overpayments : ℕ → ℚ} :
    ∀ (fuel month_counter : ℕ) (remaining_balance total_interest : ℚ)
      (prev_monthly_payment last_rate : Option ℚ) (s : List PaymentRecord),
    amortizeLoop interest_rates total_months start_date extra_payment overpayments
      fuel month_counter remaining_balance total_interest prev_monthly_payment last_rate
      = some s →
    s.length ≤ fuel := by
  intro fuel
  induction fuel with
  | zero =>
    intro _ _ _ _ _ s h
    rw [amortizeLoop_zero] at h
    simp only [Option.some.injEq] at h
    subst h
    exact Nat.le_refl 0
  | succ n ih =>
    intro month_counter remaining_balance total_interest prev_monthly_payment last_rate s h
    rcases amortizeLoop_succ_inv h with ⟨_, hnil⟩ | ⟨_, rec, rest, _, hrest, hs⟩
    · subst hnil
      exact Nat.zero_le _
    · subst hs
      simpa using Nat.succ_le_succ (ih _ _ _ _ _ _ hrest)

theorem amortizeLoop_positive_before_last {interest_rates : List RateEntry}
    {total_months start_date : ℤ} {extra_payment : ℚ} {overpayments : ℕ → ℚ} :
    ∀ (fuel month_counter : ℕ) (remaining_balance total_interest : ℚ)
      (prev_monthly_payment last_rate : Option ℚ) (s : List PaymentRecord),
    amortizeLoop interest_rates total_months start_date extra_payment overpayments
      fuel month_counter remaining_balance total_interest prev_monthly_payment last_rate
      = some s →
    positive_before_last s := by
  intro fuel
  induction fuel with
  | zero =>
    intro _ _ _ _ _ s h
    rw [amortizeLoop_zero] at h
    simp only [Option.some.injEq] at h
    subst h
    trivial
  | succ n ih =>
    intro month_counter remaining_balance total_interest prev_monthly_payment last_rate s h
    rcases amortizeLoop_succ_inv h with ⟨_, hnil⟩ | ⟨_, rec, rest, _, hrest, hs⟩
    · subst hnil
      trivial
    · subst hs
      cases rest with
      | nil => trivial
      | cons rec' rest' =>
        exact ⟨amortizeLoop_cons_pos hrest, ih _ _ _ _ _ _ hrest⟩

/-- C5: every run returns (termination is inherent in the model: the loop is
structurally recursive on its fuel), a returned schedule has at most 1000
records, and the iteration stops as soon as the balance reaches `≤ 0`: every
record except possibly the last reports a positive balance, a bound-hitting
run simply returns the 1000 records produced so far. -/
theorem claim_c5_safety_bound (loan_amount interest_rate : ℚ)
    (total_months start_date : ℤ) (extra_payment : ℚ) (overpayments : ℕ → ℚ)
    (interest_rates : Option (List RateEntry)) (s : List PaymentRecord)
    (h : calculate_amortization loan_amount interest_rate total_months start_date
      extra_payment overpayments interest_rates = some s) :
    s.length ≤ 1000 ∧ positive_before_last s :=
  ⟨amortizeLoop_length_le 1000 0 loan_amount 0 none none s h,
   amortizeLoop_positive_before_last 1000 0 loan_amount 0 none none s h⟩

theorem claim_c5_witness :
    calculate_amortization 100 1200 1 0 0 (fun _ => 1) none = some
      [{ month := 1, date := 0, rate := 1200, payment := 201, principal := 101,
         interest := 100, total_interest := 100, balance := -1, overpayment := 1,
         monthly_payment := 200 }] ∧
    ([({ month := 1, date := 0, rate := 1200, payment := 201, principal := 101,
         interest := 100, total_interest := 100, balance := -1, overpayment := 1,
         monthly_payment := 200 } : PaymentRecord)].length ≤ 1000 ∧
     positive_before_last
      [{ month := 1, date := 0, rate := 1200, payment := 201, principal := 101,
         interest := 100, total_interest := 100, balance := -1, overpayment := 1,
         monthly_payment := 200 }]) := by
  have hrun : calculate_amortization 100 1200 1 0 0 (fun _ => 1) none = some
      [{ month := 1, date := 0, rate := 1200, payment := 201, principal := 101,
         interest := 100, total_interest := 100, balance := -1, overpayment := 1,
         monthly_payment := 200 }] := by
    unfold calculate_amortization
    refine amortizeLoop_eval_cons 999 (by norm_num) (by norm_num) ?_ ?_
    · norm_num [amortizeStep, effective_rates, get_applicable_interest_rate, get_payment_date,
        recompute_payment, List.insertionSort, List.orderedInsert, rate_desc, min_def,
        show (1:ℤ).toNat = 1 from rfl]
    · exact amortizeLoop_eval_nil _ _ _ _ _ _ _ _ _ _ _ (by norm_num)
  exact ⟨hrun, claim_c5_safety_bound 100 1200 1 0 0 (fun _ => 1) none _ hrun⟩

theorem amortizeLoop_balances_nonneg {interest_rates : List RateEntry}
    {total_months start_date : ℤ} {extra_payment : ℚ} {overpayments : ℕ → ℚ}
    (hov : ∀ m, overpayments m = 0) :
    ∀ (fuel month_counter : ℕ) (remaining_balance total_interest : ℚ)
      (prev_monthly_payment last_rate : Option ℚ) (s : List PaymentRecord),
    amortizeLoop interest_rates total_months start_date extra_payment overpayments
      fuel month_counter remaining_balance total_interest prev_monthly_payment last_rate
      = some s →
    ∀ rec ∈ s, 0 ≤ rec.balance := by
  intro fuel
  induction fuel with
  | zero =>
    intro _ _ _ _ _ s h
    rw [amortizeLoop_zero] at h
    simp only [Option.some.injEq] at h
    subst h
    exact fun _ hmem => absurd hmem (List.not_mem_nil _)
  | succ n ih =>
    intro month_counter remaining_balance total_interest prev_monthly_payment last_rate s h
    rcases amortizeLoop_succ_inv h with ⟨_, hnil⟩ | ⟨hB, rec, rest, hstep, hrest, hs⟩
    · subst hnil
      exact fun _ hmem => absurd hmem (List.not_mem_nil _)
    · subst hs
      obtain ⟨_, _, _, _, hprin, _, _, hbal, _, _, _⟩ := amortizeStep_some_spec hstep
      intro r hr
      rcases List.mem_cons.mp hr with hr | hr
      · subst hr
        rw [hbal, hprin, hov, add_zero, sub_nonneg]
        exact min_le_right _ _
      · exact ih _ _ _ _ _ _ hrest r hr

theorem amortizeLoop_last_balance_nonpos {interest_rates : List RateEntry}
    {total_months start_date : ℤ} {extra_payment : ℚ} {overpayments : ℕ → ℚ} :
    ∀ (fuel month_counter : ℕ) (remaining_balance total_interest : ℚ)
      (prev_monthly_payment last_rate : Option ℚ) (s : List PaymentRecord),
    amortizeLoop interest_rates total_months start_date extra_payment overpayments
      fuel month_counter remaining_balance total_interest prev_monthly_payment last_rate
      = some s →
    s.length < fuel →
    ∀ rec, s.getLast? = some rec → rec.balance ≤ 0 := by
  intro fuel
  induction fuel with
  | zero =>
    intro _ _ _ _ _ _ _ hlen
    exact absurd hlen (Nat.not_lt_zero _)
  | succ n ih =>
    intro month_counter remaining_balance total_interest prev_monthly_payment last_rate s h
      hlen rec0 hlast
    rcases amortizeLoop_succ_inv h with ⟨_, hnil⟩ | ⟨hB, rec, rest, hstep, hrest, hs⟩
    · subst hnil
      simp at hlast
    · subst hs
      cases rest with
      | nil =>
        simp only [List.getLast?_singleton, Option.some.injEq] at hlast
        subst hlast
        have hn : n ≠ 0 := by
          intro hn0
          subst hn0
          simp at hlen
        obtain ⟨m, hm⟩ := Nat.exists_eq_succ_of_ne_zero hn
        subst hm
        have := amortizeLoop_nil_inv hrest
        exact le_of_not_lt this
      | cons rec' rest' =>
        rw [List.getLast?_cons_cons] at hlast
        refine ih _ _ _ _ _ _ hrest ?_ rec0 hlast
        simpa using Nat.lt_of_succ_lt_succ hlen

/-- C2 (amended): the balance a record reports is the exact post-payment
balance, never negative when no one-time overpayment is applied (the principal
component is clamped at the remaining balance); and in an overpayment-free run
that terminates before the 1000-period safety bound the final record's balance
is exactly 0 (hence within every positive tolerance of zero). One-time
overpayments are added after the clamp and can drive the reported balance
negative, so the original claim is restricted to runs whose overpayment map is
identically zero. -/
theorem claim_c2_balances (loan_amount interest_rate : ℚ)
    (total_months start_date : ℤ) (extra_payment : ℚ) (overpayments : ℕ → ℚ)
    (interest_rates : Option (List RateEntry)) (s : List PaymentRecord)
    (hov : ∀ m, overpayments m = 0)
    (h : calculate_amortization loan_amount interest_rate total_months start_date
      extra_payment overpayments interest_rates = some s) :
    balances_nonneg s ∧ final_balance_zero_unless_bound s := by
  refine ⟨amortizeLoop_balances_nonneg hov 1000 0 loan_amount 0 none none s h, ?_⟩
  intro hlen rec hlast
  have hle := amortizeLoop_last_balance_nonpos 1000 0 loan_amount 0 none none s h hlen rec hlast
  have hmem : rec ∈ s := by
    obtain ⟨hne, heq⟩ := List.mem_getLast?_eq_getLast (Option.mem_def.mpr hlast)
    exact heq ▸ List.getLast_mem hne
  have hge := amortizeLoop_balances_nonneg hov 1000 0 loan_amount 0 none none s h rec hmem
  exact le_antisymm hle hge

theorem claim_c2_witness :
    calculate_amortization 100 1200 2 0 0 (fun _ => 0) none = some
      [{ month := 1, date := 0, rate := 1200, payment := 400/3, principal := 100/3,
         interest := 100, total_interest := 100, balance := 200/3, overpayment := 0,
         monthly_payment := 400/3 },
       { month := 2, date := 1, rate := 1200, payment := 400/3, principal := 200/3,
         interest := 200/3, total_interest := 500/3, balance := 0, overpayment := 0,
         monthly_payment := 400/3 }] ∧
    (balances_nonneg
      [{ month := 1, date := 0, rate := 1200, payment := 400/3, principal := 100/3,
         interest := 100, total_interest := 100, balance := 200/3, overpayment := 0,
         monthly_payment := 400/3 },
       { month := 2, date := 1, rate := 1200, payment := 400/3, principal := 200/3,
         interest := 200/3, total_interest := 500/3, balance := 0, overpayment := 0,
         monthly_payment := 400/3 }] ∧
     final_balance_zero_unless_bound
      [{ month := 1, date := 0, rate := 1200, payment := 400/3, principal := 100/3,
         interest := 100, total_interest := 100, balance := 200/3, overpayment := 0,
         monthly_payment := 400/3 },
       { month := 2, date := 1, rate := 1200, payment := 400/3, principal := 200/3,
         interest := 200/3, total_interest := 500/3, balance := 0, overpayment := 0,
         monthly_payment := 400/3 }]) := by
  have hrun : calculate_amortization 100 1200 2 0 0 (fun _ => 0) none = some
      [{ month := 1, date := 0, rate := 1200, payment := 400/3, principal := 100/3,
         interest := 100, total_interest := 100, balance := 200/3, overpayment := 0,
         monthly_payment := 400/3 },
       { month := 2, date := 1, rate := 1200, payment := 400/3, principal := 200/3,
         interest := 200/3, total_interest := 500/3, balance := 0, overpayment := 0,
         monthly_payment := 400/3 }] := by
    unfold calculate_amortization
    refine amortizeLoop_eval_cons 999 (by norm_num) (by norm_num) ?_ ?_
    · norm_num [amortizeStep, effective_rates, get_applicable_interest_rate, get_payment_date,
        recompute_payment, List.insertionSort, List.orderedInsert, rate_desc, min_def,
        show (2:ℤ).toNat = 2 from rfl]
    · refine amortizeLoop_eval_cons 998 (by norm_num) (by norm_num) ?_ ?_
      · simp only [amortizeStep, effective_rates, get_applicable_interest_rate,
          get_payment_date, recompute_payment, List.insertionSort, List.orderedInsert,
          rate_desc]
        simp
        norm_num [min_def]
      · exact amortizeLoop_eval_nil _ _ _ _ _ _ _ _ _ _ _ (by norm_num)
  exact ⟨hrun, claim_c2_balances 100 1200 2 0 0 (fun _ => 0) none _ (fun _ => rfl) hrun⟩

/-- C2 is false as stated: with a one-time overpayment exceeding the remaining
balance, the (final) record reports a negative balance, far below the 0.01
tolerance; balances are not clamped to 0 for reporting. -/
theorem claim_c2_counterexample :
    calculate_amortization 100 1200 2 0 0 (fun m => if m = 1 then 1000 else 0) none = some
      [{ month := 1, date := 0, rate := 1200, payment := 3400/3, principal := 3100/3,
         interest := 100, total_interest := 100, balance := -2800/3, overpayment := 1000,
         monthly_payment := 400/3 }] ∧
    ({ month := 1, date := 0, rate := 1200, payment := 3400/3, principal := 3100/3,
       interest := 100, total_interest := 100, balance := -2800/3, overpayment := 1000,
       monthly_payment := 400/3 } : PaymentRecord).balance < -(1/100) := by
  constructor
  · unfold calculate_amortization
    refine amortizeLoop_eval_cons 999 (by norm_num) (by norm_num) ?_ ?_
    · norm_num [amortizeStep, effective_rates, get_applicable_interest_rate, get_payment_date,
        recompute_payment, List.insertionSort, List.orderedInsert, rate_desc, min_def,
        show (2:ℤ).toNat = 2 from rfl]
    · exact amortizeLoop_eval_nil _ _ _ _ _ _ _ _ _ _ _ (by norm_num)
  · norm_num

theorem recompute_payment_zero_rate (remaining_balance : ℚ) (remaining_term : ℤ)
    (hn : 0 < remaining_term) :
    recompute_payment remaining_balance 0 remaining_term = none := by
  unfold recompute_payment
  rw [if_pos hn]
  norm_num

theorem zero_rate_step_none {interest_rates : List RateEntry} {total_months start_date : ℤ}
    {extra_payment : ℚ} {overpayments : ℕ → ℚ} {month_counter : ℕ}
    {remaining_balance total_interest : ℚ} {last_rate : Option ℚ}
    (htm : (month_counter : ℤ) ≤ total_months)
    (hrate : get_applicable_interest_rate (get_payment_date start_date month_counter)
      interest_rates = some 0) :
    amortizeStep interest_rates total_months start_date extra_payment overpayments
      month_counter remaining_balance total_interest none last_rate = none := by
  simp only [amortizeStep]
  rw [hrate]
  dsimp only
  rw [if_pos (Or.inl trivial)]
  have h0 : (0 : ℚ) / 100 / 12 = 0 := by norm_num
  rw [h0, recompute_payment_zero_rate]
  omega

/-- The engine has no linear-amortization special case: a resolved period rate
of exactly 0 on the first period (with a positive balance and a positive
remaining term) makes the annuity denominator `(1+r)^n - 1` vanish and the
run aborts with a division error. -/
theorem calculate_amortization_zero_rate_none (loan_amount interest_rate : ℚ)
    (total_months start_date : ℤ) (extra_payment : ℚ) (overpayments : ℕ → ℚ)
    (interest_rates : Option (List RateEntry))
    (hloan : 0 < loan_amount) (htm : 1 ≤ total_months)
    (hrate : get_applicable_interest_rate (get_payment_date start_date 1)
      (effective_rates interest_rate start_date interest_rates) = some 0) :
    calculate_amortization loan_amount interest_rate total_months start_date
      extra_payment overpayments interest_rates = none := by
  unfold calculate_amortization
  rw [show (1000 : ℕ) = 999 + 1 from rfl, amortizeLoop_succ, if_pos hloan]
  have hstep : amortizeStep (effective_rates interest_rate start_date interest_rates)
      total_months start_date extra_payment overpayments 1 loan_amount 0 none none
      = none :=
    zero_rate_step_none (by exact_mod_cast htm) hrate
  rw [show (0 + 1 : ℕ) = 1 from rfl, hstep]

/-- C1 (amended): the code does NOT special-case a zero period rate. Whenever
the rate resolved for the first period is exactly 0, the balance is positive
and the remaining term is positive, the annuity denominator `(1+r)^n - 1`
is zero and the payment computation raises a division error (modelled as
`none`); no `payment = balance / n` fallback exists anywhere in the code. -/
theorem claim_c1_zero_rate_division_error (loan_amount interest_rate : ℚ)
    (total_months start_date : ℤ) (extra_payment : ℚ) (overpayments : ℕ → ℚ)
    (interest_rates : Option (List RateEntry))
    (hloan : 0 < loan_amount) (htm : 1 ≤ total_months)
    (hrate : get_applicable_interest_rate (get_payment_date start_date 1)
      (effective_rates interest_rate start_date interest_rates) = some 0) :
    calculate_amortization loan_amount interest_rate total_months start_date
      extra_payment overpayments interest_rates = none :=
  calculate_amortization_zero_rate_none loan_amount interest_rate total_months start_date
    extra_payment overpayments interest_rates hloan htm hrate

theorem claim_c1_witness :
    (0 : ℚ) < 100 ∧ (1 : ℤ) ≤ 12 ∧
    get_applicable_interest_rate (get_payment_date 0 1) (effective_rates 0 0 none)
      = some 0 ∧
    calculate_amortization 100 0 12 0 0 (fun _ => 0) none = none := by
  have hrate : get_applicable_interest_rate (get_payment_date 0 1) (effective_rates 0 0 none)
      = some 0 := by
    norm_num [get_applicable_interest_rate, effective_rates, get_payment_date,
      List.insertionSort, List.orderedInsert, rate_desc]
  exact ⟨by norm_num, by norm_num, hrate,
    claim_c1_zero_rate_division_error 100 0 12 0 0 (fun _ => 0) none
      (by norm_num) (by norm_num) hrate⟩

/-- C1 is false as stated: on a zero-rate input the engine raises a division
error (returns no schedule at all) instead of producing the linear-amortization
payment `balance / n`. -/
theorem claim_c1_counterexample :
    calculate_amortization 100 0 12 0 0 (fun _ => 0) none = none :=
  calculate_amortization_zero_rate_none 100 0 12 0 0 (fun _ => 0) none
    (by norm_num) (by norm_num)
    (by norm_num [get_applicable_interest_rate, effective_rates, get_payment_date,
      List.insertionSort, List.orderedInsert, rate_desc])

theorem find?_sorted_spec {date : ℤ} :
    ∀ {l : List RateEntry} {e : RateEntry}, l.Sorted rate_desc →
    l.find? (fun rate_info => decide (rate_info.start_date ≤ date)) = some e →
    e ∈ l ∧ e.start_date ≤ date ∧
      ∀ x ∈ l, x.start_date ≤ date → x.start_date ≤ e.start_date := by
  intro l
  induction l with
  | nil => intro e _ h; simp at h
  | cons a t ih =>
    intro e hsorted hfind
    obtain ⟨ha, htail⟩ := List.sorted_cons.mp hsorted
    by_cases hpa : a.start_date ≤ date
    · rw [List.find?_cons_of_pos _ (by simpa using hpa)] at hfind
      simp only [Option.some.injEq] at hfind
      subst hfind
      refine ⟨List.mem_cons_self _ _, hpa, ?_⟩
      intro x hx _
      rcases List.mem_cons.mp hx with hx | hx
      · subst hx; exact le_refl _
      · exact ha x hx
    · rw [List.find?_cons_of_neg _ (by simpa using hpa)] at hfind
      obtain ⟨hmem, hle, hmax⟩ := ih htail hfind
      refine ⟨List.mem_cons_of_mem _ hmem, hle, ?_⟩
      intro x hx hxd
      rcases List.mem_cons.mp hx with hx | hx
      · subst hx; exact absurd hxd hpa
      · exact hmax x hx hxd

theorem getLast?_sorted_min :
    ∀ {l : List RateEntry} {e : RateEntry}, l.Sorted rate_desc →
    l.getLast? = some e →
    e ∈ l ∧ ∀ x ∈ l, e.start_date ≤ x.start_date := by
  intro l
  induction l with
  | nil => intro e _ h; simp at h
  | cons a t ih =>
    intro e hsorted hlast
    obtain ⟨ha, htail⟩ := List.sorted_cons.mp hsorted
    cases t with
    | nil =>
      simp only [List.getLast?_singleton, Option.some.injEq] at hlast
      subst hlast
      refine ⟨List.mem_cons_self _ _, ?_⟩
      intro x hx
      rcases List.mem_cons.mp hx with hx | hx
      · subst hx; exact le_refl _
      · exact absurd hx (List.not_mem_nil _)
    | cons b t' =>
      rw [List.getLast?_cons_cons] at hlast
      obtain ⟨hmem, hmin⟩ := ih htail hlast
      refine ⟨List.mem_cons_of_mem _ hmem, ?_⟩
      intro x hx
      rcases List.mem_cons.mp hx with hx | hx
      · subst hx; exact ha e hmem
      · exact hmin x hx

/-- C3: for every date and non-empty rate schedule, the resolver returns the
rate of a most recent entry effective on or before the date; when the date
precedes every entry it falls back to the rate of a chronologically earliest
entry instead of failing. -/
theorem claim_c3_applicable_rate (date : ℤ) (interest_rates : List RateEntry)
    (hne : interest_rates ≠ []) :
    applicable_rate_spec date interest_rates := by
  have hsorted : (interest_rates.insertionSort rate_desc).Sorted rate_desc :=
    List.sorted_insertionSort rate_desc interest_rates
  have hperm : (interest_rates.insertionSort rate_desc).Perm interest_rates :=
    List.perm_insertionSort rate_desc interest_rates
  rcases hfind : (interest_rates.insertionSort rate_desc).find?
      (fun rate_info => decide (rate_info.start_date ≤ date)) with _ | e
  · -- no entry applies: fall back to the earliest entry
    have hnall : ∀ x ∈ interest_rates, date < x.start_date := by
      intro x hx
      have hx' : x ∈ interest_rates.insertionSort rate_desc := hperm.mem_iff.mpr hx
      have := List.find?_eq_none.mp hfind x hx'
      simpa using this
    have hlne : interest_rates.insertionSort rate_desc ≠ [] := by
      intro h0
      exact hne (List.Perm.eq_nil (h0 ▸ hperm.symm))
    obtain ⟨e, hlast⟩ := Option.isSome_iff_exists.mp
      (List.getLast?_isSome.mpr hlne)
    obtain ⟨hmem, hmin⟩ := getLast?_sorted_min hsorted hlast
    refine ⟨e, hperm.mem_iff.mp hmem, ?_, Or.inr ⟨hnall, ?_⟩⟩
    · simp only [get_applicable_interest_rate]
      rw [hfind, hlast]
      rfl
    · intro x hx
      exact hmin x (hperm.mem_iff.mpr hx)
  · obtain ⟨hmem, hle, hmax⟩ := find?_sorted_spec hsorted hfind
    refine ⟨e, hperm.mem_iff.mp hmem, ?_, Or.inl ⟨hle, ?_⟩⟩
    · simp only [get_applicable_interest_rate]
      rw [hfind]
    · intro x hx hxd
      exact hmax x (hperm.mem_iff.mpr hx) hxd

theorem claim_c3_witness :
    ([⟨3, 10⟩, ⟨4, 20⟩] : List RateEntry) ≠ [] ∧
    applicable_rate_spec 15 [⟨3, 10⟩, ⟨4, 20⟩] ∧
    applicable_rate_spec 5 [⟨3, 10⟩, ⟨4, 20⟩] :=
  ⟨by simp,
   claim_c3_applicable_rate 15 [⟨3, 10⟩, ⟨4, 20⟩] (by simp),
   claim_c3_applicable_rate 5 [⟨3, 10⟩, ⟨4, 20⟩] (by simp)⟩

theorem sorted_perm_nodup_dates_eq :
    ∀ {l₁ l₂ : List RateEntry}, l₁.Perm l₂ →
    l₁.Sorted rate_desc → l₂.Sorted rate_desc →
    (l₁.map RateEntry.start_date).Nodup → l₁ = l₂ := by
  intro l₁
  induction l₁ with
  | nil =>
    intro l₂ hp _ _ _
    exact (hp.symm.eq_nil).symm
  | cons a t ih =>
    intro l₂ hp hs₁ hs₂ hnodup
    cases l₂ with
    | nil => exact absurd hp.eq_nil (List.cons_ne_nil _ _)
    | cons b t₂ =>
      obtain ⟨ha, ht⟩ := List.sorted_cons.mp hs₁
      obtain ⟨hb, ht₂⟩ := List.sorted_cons.mp hs₂
      obtain ⟨hnotmem, hnodup'⟩ :
          (∀ x ∈ t, ¬ x.start_date = a.start_date) ∧
            (t.map RateEntry.start_date).Nodup := by
        simpa using hnodup
      have hab : a = b := by
        have hamem : a ∈ b :: t₂ := hp.mem_iff.mp (List.mem_cons_self _ _)
        have hbmem : b ∈ a :: t := hp.mem_iff.mpr (List.mem_cons_self _ _)
        rcases List.mem_cons.mp hamem with h | h
        · exact h
        rcases List.mem_cons.mp hbmem with h' | h'
        · exact h'.symm
        exfalso
        have hdate : a.start_date = b.start_date :=
          le_antisymm (hb a h) (ha b h')
        exact hnotmem b h' hdate.symm
      subst hab
      have hp' : t.Perm t₂ := hp.cons_inv
      rw [ih hp' ht ht₂ hnodup']

theorem insertionSort_eq_of_perm {l₁ l₂ : List RateEntry} (hperm : l₁.Perm l₂)
    (hnodup : (l₁.map RateEntry.start_date).Nodup) :
    l₁.insertionSort rate_desc = l₂.insertionSort rate_desc := by
  refine sorted_perm_nodup_dates_eq ?_ (List.sorted_insertionSort rate_desc l₁)
    (List.sorted_insertionSort rate_desc l₂) ?_
  · exact ((List.perm_insertionSort rate_desc l₁).trans hperm).trans
      (List.perm_insertionSort rate_desc l₂).symm
  · exact (((List.perm_insertionSort rate_desc l₁).map RateEntry.start_date).nodup_iff).mpr
      hnodup

/-- C8: on rate schedules with pairwise-distinct effective dates, the resolver
is independent of the input ordering: permuting the list does not change the
returned rate for any date. -/
theorem claim_c8_order_independent (date : ℤ) (l₁ l₂ : List RateEntry)
    (hperm : l₁.Perm l₂) (hnodup : (l₁.map RateEntry.start_date).Nodup) :
    get_applicable_interest_rate date l₁ = get_applicable_interest_rate date l₂ := by
  simp only [get_applicable_interest_rate]
  rw [insertionSort_eq_of_perm hperm hnodup]

theorem claim_c8_witness :
    ([⟨3, 10⟩, ⟨4, 20⟩] : List RateEntry).Perm [⟨4, 20⟩, ⟨3, 10⟩] ∧
    (([⟨3, 10⟩, ⟨4, 20⟩] : List RateEntry).map RateEntry.start_date).Nodup ∧
    get_applicable_interest_rate 15 [⟨3, 10⟩, ⟨4, 20⟩]
      = get_applicable_interest_rate 15 [⟨4, 20⟩, ⟨3, 10⟩] := by
  have hperm : ([⟨3, 10⟩, ⟨4, 20⟩] : List RateEntry).Perm [⟨4, 20⟩, ⟨3, 10⟩] :=
    List.Perm.swap _ _ _
  have hnodup : (([⟨3, 10⟩, ⟨4, 20⟩] : List RateEntry).map RateEntry.start_date).Nodup := by
    simp
  exact ⟨hperm, hnodup, claim_c8_order_independent 15 _ _ hperm hnodup⟩

theorem recompute_payment_eq_some {remaining_balance monthly_interest_rate : ℚ}
    {remaining_term : ℤ} {monthly_payment : ℚ}
    (h : recompute_payment remaining_balance monthly_interest_rate remaining_term
      = some monthly_payment) :
    (0 < remaining_term →
      monthly_payment = remaining_balance *
        (monthly_interest_rate * (1 + monthly_interest_rate) ^ remaining_term.toNat)
          / ((1 + monthly_interest_rate) ^ remaining_term.toNat - 1)) ∧
    (¬ 0 < remaining_term →
      monthly_payment = remaining_balance * (1 + monthly_interest_rate)) := by
  simp only [recompute_payment] at h
  by_cases hn : 0 < remaining_term
  · rw [if_pos hn] at h
    by_cases hden : (1 + monthly_interest_rate) ^ remaining_term.toNat - 1 = 0
    · rw [if_pos hden] at h
      simp at h
    · rw [if_neg hden] at h
      simp only [Option.some.injEq] at h
      exact ⟨fun _ => h.symm, fun hn' => absurd hn hn'⟩
  · rw [if_neg hn] at h
    simp only [Option.some.injEq] at h
    exact ⟨fun hn' => absurd hn' hn, fun _ => h.symm⟩

theorem amortizeLoop_payment_rule {interest_rates : List RateEntry}
    {total_months start_date : ℤ} {extra_payment : ℚ} {overpayments : ℕ → ℚ} :
    ∀ (fuel month_counter : ℕ) (remaining_balance total_interest : ℚ)
      (prev_monthly_payment last_rate : Option ℚ) (s : List PaymentRecord),
    amortizeLoop interest_rates total_months start_date extra_payment overpayments
      fuel month_counter remaining_balance total_interest prev_monthly_payment last_rate
      = some s →
    payment_rule total_months (month_counter + 1) remaining_balance
      prev_monthly_payment last_rate s := by
  intro fuel
  induction fuel with
  | zero =>
    intro _ _ _ _ _ s h
    rw [amortizeLoop_zero] at h
    simp only [Option.some.injEq] at h
    subst h
    trivial
  | succ n ih =>
    intro month_counter remaining_balance total_interest prev_monthly_payment last_rate s h
    rcases amortizeLoop_succ_inv h with ⟨_, hnil⟩ | ⟨_, rec, rest, hstep, hrest, hs⟩
    · subst hnil
      trivial
    · subst hs
      obtain ⟨_, _, _, _, _, _, _, _, _, hrecomp, hreuse⟩ := amortizeStep_some_spec hstep
      refine ⟨?_, hreuse, ih _ _ _ _ _ _ hrest⟩
      intro hcond
      obtain ⟨hpos, hneg⟩ := recompute_payment_eq_some (hrecomp hcond)
      by_cases hn : 0 < total_months - ((month_counter : ℕ) + 1 : ℕ) + 1
      · rw [if_pos hn]
        exact hpos hn
      · rw [if_neg hn]
        exact hneg hn

/-- C4: in every successfully returned schedule, each period's monthly payment
is recomputed from the balance before the period and the remaining term
`total_months - period + 1` by the annuity formula (resp. `balance * (1+r)`
when that term is `≤ 0`) exactly when the period's resolved rate differs from
the previous record's rate or the period is the first one; otherwise the
previous period's payment is reused unchanged. -/
theorem claim_c4_payment_recomputation (loan_amount interest_rate : ℚ)
    (total_months start_date : ℤ) (extra_payment : ℚ) (overpayments : ℕ → ℚ)
    (interest_rates : Option (List RateEntry)) (s : List PaymentRecord)
    (h : calculate_amortization loan_amount interest_rate total_months start_date
      extra_payment overpayments interest_rates = some s) :
    payment_rule total_months 1 loan_amount none none s :=
  amortizeLoop_payment_rule 1000 0 loan_amount 0 none none s h

theorem claim_c4_witness :
    calculate_amortization 100 1200 2 0 0 (fun _ => 0) none = some
      [{ month := 1, date := 0, rate := 1200, payment := 400/3, principal := 100/3,
         interest := 100, total_interest := 100, balance := 200/3, overpayment := 0,
         monthly_payment := 400/3 },
       { month := 2, date := 1, rate := 1200, payment := 400/3, principal := 200/3,
         interest := 200/3, total_interest := 500/3, balance := 0, overpayment := 0,
         monthly_payment := 400/3 }] ∧
    payment_rule 2 1 100 none none
      [{ month := 1, date := 0, rate := 1200, payment := 400/3, principal := 100/3,
         interest := 100, total_interest := 100, balance := 200/3, overpayment := 0,
         monthly_payment := 400/3 },
       { month := 2, date := 1, rate := 1200, payment := 400/3, principal := 200/3,
         interest := 200/3, total_interest := 500/3, balance := 0, overpayment := 0,
         monthly_payment := 400/3 }] := by
  have hrun : calculate_amortization 100 1200 2 0 0 (fun _ => 0) none = some
      [{ month := 1, date := 0, rate := 1200, payment := 400/3, principal := 100/3,
         interest := 100, total_interest := 100, balance := 200/3, overpayment := 0,
         monthly_payment := 400/3 },
       { month := 2, date := 1, rate := 1200, payment := 400/3, principal := 200/3,
         interest := 200/3, total_interest := 500/3, balance := 0, overpayment := 0,
         monthly_payment := 400/3 }] := by
    unfold calculate_amortization
    refine amortizeLoop_eval_cons 999 (by norm_num) (by norm_num) ?_ ?_
    · norm_num [amortizeStep, effective_rates, get_applicable_interest_rate, get_payment_date,
        recompute_payment, List.insertionSort, List.orderedInsert, rate_desc, min_def,
        show (2:ℤ).toNat = 2 from rfl]
    · refine amortizeLoop_eval_cons 998 (by norm_num) (by norm_num) ?_ ?_
      · simp only [amortizeStep, effective_rates, get_applicable_interest_rate,
          get_payment_date, recompute_payment, List.insertionSort, List.orderedInsert,
          rate_desc]
        simp
        norm_num [min_def]
      · exact amortizeLoop_eval_nil _ _ _ _ _ _ _ _ _ _ _ (by norm_num)
  exact ⟨hrun, claim_c4_payment_recomputation 100 1200 2 0 0 (fun _ => 0) none _ hrun⟩

/-- C6 is false as stated: with a (valid per the data model, but negative)
rate of -3600 % p.a. the recomputed payment is negative and the reported
balance doubles from period 1 to period 2 even though the extra payment and
all overpayments are 0. -/
theorem claim_c6_counterexample :
    calculate_amortization 100 (-3600) 3 0 0 (fun _ => 0) none = some
      [{ month := 1, date := 0, rate := -3600, payment := -800/3, principal := 100/3,
         interest := -300, total_interest := -300, balance := 200/3, overpayment := 0,
         monthly_payment := -800/3 },
       { month := 2, date := 1, rate := -3600, payment := -800/3, principal := -200/3,
         interest := -200, total_interest := -500, balance := 400/3, overpayment := 0,
         monthly_payment := -800/3 },
       { month := 3, date := 2, rate := -3600, payment := -800/3, principal := 400/3,
         interest := -400, total_interest := -900, balance := 0, overpayment := 0,
         monthly_payment := -800/3 }] ∧
    ¬ balances_nonincreasing
      [{ month := 1, date := 0, rate := -3600, payment := -800/3, principal := 100/3,
         interest := -300, total_interest := -300, balance := 200/3, overpayment := 0,
         monthly_payment := -800/3 },
       { month := 2, date := 1, rate := -3600, payment := -800/3, principal := -200/3,
         interest := -200, total_interest := -500, balance := 400/3, overpayment := 0,
         monthly_payment := -800/3 },
       { month := 3, date := 2, rate := -3600, payment := -800/3, principal := 400/3,
         interest := -400, total_interest := -900, balance := 0, overpayment := 0,
         monthly_payment := -800/3 }] := by
  constructor
  · unfold calculate_amortization
    refine amortizeLoop_eval_cons 999 (by norm_num) (by norm_num) ?_ ?_
    · norm_num [amortizeStep, effective_rates, get_applicable_interest_rate, get_payment_date,
        recompute_payment, List.insertionSort, List.orderedInsert, rate_desc, min_def,
        show (3:ℤ).toNat = 3 from rfl]
    · refine amortizeLoop_eval_cons 998 (by norm_num) (by norm_num) ?_ ?_
      · simp only [amortizeStep, effective_rates, get_applicable_interest_rate,
          get_payment_date, recompute_payment, List.insertionSort, List.orderedInsert,
          rate_desc]
        simp
        norm_num [min_def]
      · refine amortizeLoop_eval_cons 997 (by norm_num) (by norm_num) ?_ ?_
        · simp only [amortizeStep, effective_rates, get_applicable_interest_rate,
            get_payment_date, recompute_payment, List.insertionSort, List.orderedInsert,
            rate_desc]
          simp
          norm_num [min_def]
        · exact amortizeLoop_eval_nil _ _ _ _ _ _ _ _ _ _ _ (by norm_num)
  · simp only [balances_nonincreasing, List.chain'_cons]
    intro hcontra
    have := hcontra.1
    norm_num at this

theorem annuity_payment_ge_interest {remaining_balance monthly_interest_rate : ℚ}
    {remaining_term : ℤ} {monthly_payment : ℚ}
    (hB : 0 < remaining_balance) (hr : 0 < monthly_interest_rate)
    (h : recompute_payment remaining_balance monthly_interest_rate remaining_term
      = some monthly_payment) :
    remaining_balance * monthly_interest_rate ≤ monthly_payment := by
  obtain ⟨hpos, hneg⟩ := recompute_payment_eq_some h
  by_cases hn : 0 < remaining_term
  · have hmp := hpos hn
    have hk : remaining_term.toNat ≠ 0 := by omega
    have hx : 1 < 1 + monthly_interest_rate := by linarith
    have hxk : 1 < (1 + monthly_interest_rate) ^ remaining_term.toNat :=
      one_lt_pow₀ hx hk
    have hden : 0 < (1 + monthly_interest_rate) ^ remaining_term.toNat - 1 := by
      linarith
    rw [hmp, le_div_iff₀ hden]
    nlinarith [mul_pos hB hr]
  · have hmp := hneg hn
    rw [hmp]
    nlinarith

theorem amortizeLoop_balances_antitone {interest_rates : List RateEntry}
    {total_months start_date : ℤ} {extra_payment : ℚ} {overpayments : ℕ → ℚ}
    (hep : 0 ≤ extra_payment) (hov : ∀ m, 0 ≤ overpayments m) :
    ∀ (fuel month_counter : ℕ) (remaining_balance total_interest : ℚ)
      (prev_monthly_payment last_rate : Option ℚ) (s : List PaymentRecord),
    amortizeLoop interest_rates total_months start_date extra_payment overpayments
      fuel month_counter remaining_balance total_interest prev_monthly_payment last_rate
      = some s →
    (∀ rec ∈ s, 0 < rec.rate) →
    (∀ p ρ, prev_monthly_payment = some p → last_rate = some ρ → 0 < ρ →
      remaining_balance * (ρ / 100 / 12) ≤ p) →
    balances_nonincreasing s ∧ ∀ rec, s.head? = some rec → rec.balance ≤ remaining_balance := by
  intro fuel
  induction fuel with
  | zero =>
    intro _ _ _ _ _ s h _ _
    rw [amortizeLoop_zero] at h
    simp only [Option.some.injEq] at h
    subst h
    exact ⟨List.chain'_nil, by simp⟩
  | succ n ih =>
    intro month_counter remaining_balance total_interest prev_monthly_payment last_rate s h
      hrates hinv
    rcases amortizeLoop_succ_inv h with ⟨_, hnil⟩ | ⟨hB, rec, rest, hstep, hrest, hs⟩
    · subst hnil
      exact ⟨List.chain'_nil, by simp⟩
    · subst hs
      obtain ⟨_, _, _, hint, hprin, _, _, hbal, _, hrecomp, hreuse⟩ :=
        amortizeStep_some_spec hstep
      have hρ : 0 < rec.rate := hrates rec (List.mem_cons_self _ _)
      have hr : 0 < rec.rate / 100 / 12 := by positivity
      have hkey : remaining_balance * (rec.rate / 100 / 12) ≤ rec.monthly_payment := by
        by_cases hcond : (prev_monthly_payment = none ∨ some rec.rate ≠ last_rate)
        · exact annuity_payment_ge_interest hB hr (hrecomp hcond)
        · push_neg at hcond
          obtain ⟨hp, hlr⟩ := hcond
          exact hinv rec.monthly_payment rec.rate (hreuse (by push_neg; exact ⟨hp, hlr⟩))
            hlr.symm hρ
      have hprin_nonneg : 0 ≤ rec.principal := by
        rw [hprin, hint]
        have h1 : 0 ≤ rec.monthly_payment - remaining_balance * (rec.rate / 100 / 12)
            + extra_payment := by linarith
        have h2 : (0:ℚ) ≤ remaining_balance := hB.le
        have h3 := le_min h1 h2
        have h4 := hov (month_counter + 1)
        linarith
      have hbal_le : rec.balance ≤ remaining_balance := by
        rw [hbal]
        linarith
      have hinv' : ∀ p ρ, some rec.monthly_payment = some p → some rec.rate = some ρ →
          0 < ρ → rec.balance * (ρ / 100 / 12) ≤ p := by
        intro p ρ hp hρeq hρpos
        simp only [Option.some.injEq] at hp hρeq
        subst hp
        subst hρeq
        calc rec.balance * (rec.rate / 100 / 12)
            ≤ remaining_balance * (rec.rate / 100 / 12) :=
              mul_le_mul_of_nonneg_right hbal_le hr.le
          _ ≤ rec.monthly_payment := hkey
      obtain ⟨hchain, hhead⟩ := ih _ _ _ _ _ _ hrest
        (fun r hr' => hrates r (List.mem_cons_of_mem _ hr')) hinv'
      refine ⟨List.chain'_cons'.mpr ⟨?_, hchain⟩, ?_⟩
      · intro y hy
        exact hhead y hy
      · intro rec' hrec'
        simp only [List.head?_cons, Option.some.injEq] at hrec'
        subst hrec'
        exact hbal_le

/-- C6 (amended): when every resolved period rate is positive (in addition to
the claim's non-negative recurring extra payment and non-negative
overpayments), the reported balance never increases from one record to the
next. A negative rate can make the recomputed payment fall below the interest
charge and the balance grow, so the original claim needs the rate-positivity
restriction. -/
theorem claim_c6_balances_nonincreasing (loan_amount interest_rate : ℚ)
    (total_months start_date : ℤ) (extra_payment : ℚ) (overpayments : ℕ → ℚ)
    (interest_rates : Option (List RateEntry)) (s : List PaymentRecord)
    (h : calculate_amortization loan_amount interest_rate total_months start_date
      extra_payment overpayments interest_rates = some s)
    (hrates : ∀ rec ∈ s, 0 < rec.rate)
    (hep : 0 ≤ extra_payment) (hov : ∀ m, 0 ≤ overpayments m) :
    balances_nonincreasing s :=
  (amortizeLoop_balances_antitone hep hov 1000 0 loan_amount 0 none none s h hrates
    (fun _ _ hp _ _ => Option.noConfusion hp)).1

theorem claim_c6_witness :
    calculate_amortization 100 1200 2 0 0 (fun _ => 0) none = some
      [{ month := 1, date := 0, rate := 1200, payment := 400/3, principal := 100/3,
         interest := 100, total_interest := 100, balance := 200/3, overpayment := 0,
         monthly_payment := 400/3 },
       { month := 2, date := 1, rate := 1200, payment := 400/3, principal := 200/3,
         interest := 200/3, total_interest := 500/3, balance := 0, overpayment := 0,
         monthly_payment := 400/3 }] ∧
    balances_nonincreasing
      [{ month := 1, date := 0, rate := 1200, payment := 400/3, principal := 100/3,
         interest := 100, total_interest := 100, balance := 200/3, overpayment := 0,
         monthly_payment := 400/3 },
       { month := 2, date := 1, rate := 1200, payment := 400/3, principal := 200/3,
         interest := 200/3, total_interest := 500/3, balance := 0, overpayment := 0,
         monthly_payment := 400/3 }] := by
  have hrun : calculate_amortization 100 1200 2 0 0 (fun _ => 0) none = some
      [{ month := 1, date := 0, rate := 1200, payment := 400/3, principal := 100/3,
         interest := 100, total_interest := 100, balance := 200/3, overpayment := 0,
         monthly_payment := 400/3 },
       { month := 2, date := 1, rate := 1200, payment := 400/3, principal := 200/3,
         interest := 200/3, total_interest := 500/3, balance := 0, overpayment := 0,
         monthly_payment := 400/3 }] := by
    unfold calculate_amortization
    refine amortizeLoop_eval_cons 999 (by norm_num) (by norm_num) ?_ ?_
    · norm_num [amortizeStep, effective_rates, get_applicable_interest_rate, get_payment_date,
        recompute_payment, List.insertionSort, List.orderedInsert, rate_desc, min_def,
        show (2:ℤ).toNat = 2 from rfl]
    · refine amortizeLoop_eval_cons 998 (by norm_num) (by norm_num) ?_ ?_
      · simp only [amortizeStep, effective_rates, get_applicable_interest_rate,
          get_payment_date, recompute_payment, List.insertionSort, List.orderedInsert,
          rate_desc]
        simp
        norm_num [min_def]
      · exact amortizeLoop_eval_nil _ _ _ _ _ _ _ _ _ _ _ (by norm_num)
  refine ⟨hrun, claim_c6_balances_nonincreasing 100 1200 2 0 0 (fun _ => 0) none _ hrun
    ?_ (le_refl 0) (fun _ => le_refl 0)⟩
  intro rec hrec
  rcases List.mem_cons.mp hrec with hrec | hrec
  · subst hrec; norm_num
  rcases List.mem_cons.mp hrec with hrec | hrec
  · subst hrec; norm_num
  · exact absurd hrec (List.not_mem_nil _)

/-- C9 is false as stated: with a (negative) rate of -12 % p.a., raising the
recurring extra payment from 0 to 10 (all else fixed) strictly increases the
total interest paid (-2781/1990 > -298/199), because the extra payment shortens
the exposure to negative interest. -/
theorem claim_c9_counterexample :
    calculate_amortization 100 (-12) 2 0 0 (fun _ => 0) none = some
      [{ month := 1, date := 0, rate := -12, payment := 9801/199, principal := 10000/199,
         interest := -1, total_interest := -1, balance := 9900/199, overpayment := 0,
         monthly_payment := 9801/199 },
       { month := 2, date := 1, rate := -12, payment := 9801/199, principal := 9900/199,
         interest := -99/199, total_interest := -298/199, balance := 0, overpayment := 0,
         monthly_payment := 9801/199 }] ∧
    calculate_amortization 100 (-12) 2 0 10 (fun _ => 0) none = some
      [{ month := 1, date := 0, rate := -12, payment := 11791/199, principal := 11990/199,
         interest := -1, total_interest := -1, balance := 7910/199, overpayment := 0,
         monthly_payment := 9801/199 },
       { month := 2, date := 1, rate := -12, payment := 78309/1990, principal := 7910/199,
         interest := -791/1990, total_interest := -2781/1990, balance := 0, overpayment := 0,
         monthly_payment := 9801/199 }] ∧
    final_total_interest
      [{ month := 1, date := 0, rate := -12, payment := 9801/199, principal := 10000/199,
         interest := -1, total_interest := -1, balance := 9900/199, overpayment := 0,
         monthly_payment := 9801/199 },
       { month := 2, date := 1, rate := -12, payment := 9801/199, principal := 9900/199,
         interest := -99/199, total_interest := -298/199, balance := 0, overpayment := 0,
         monthly_payment := 9801/199 }]
      < final_total_interest
      [{ month := 1, date := 0, rate := -12, payment := 11791/199, principal := 11990/199,
         interest := -1, total_interest := -1, balance := 7910/199, overpayment := 0,
         monthly_payment := 9801/199 },
       { month := 2, date := 1, rate := -12, payment := 78309/1990, principal := 7910/199,
         interest := -791/1990, total_interest := -2781/1990, balance := 0, overpayment := 0,
         monthly_payment := 9801/199 }] := by
  refine ⟨?_, ?_, ?_⟩
  · unfold calculate_amortization
    refine amortizeLoop_eval_cons 999 (by norm_num) (by norm_num) ?_ ?_
    · norm_num [amortizeStep, effective_rates, get_applicable_interest_rate, get_payment_date,
        recompute_payment, List.insertionSort, List.orderedInsert, rate_desc, min_def,
        show (2:ℤ).toNat = 2 from rfl]
    · refine amortizeLoop_eval_cons 998 (by norm_num) (by norm_num) ?_ ?_
      · simp only [amortizeStep, effective_rates, get_applicable_interest_rate,
          get_payment_date, recompute_payment, List.insertionSort, List.orderedInsert,
          rate_desc]
        simp
        norm_num [min_def]
      · exact amortizeLoop_eval_nil _ _ _ _ _ _ _ _ _ _ _ (by norm_num)
  · unfold calculate_amortization
    refine amortizeLoop_eval_cons 999 (by norm_num) (by norm_num) ?_ ?_
    · norm_num [amortizeStep, effective_rates, get_applicable_interest_rate, get_payment_date,
        recompute_payment, List.insertionSort, List.orderedInsert, rate_desc, min_def,
        show (2:ℤ).toNat = 2 from rfl]
    · refine amortizeLoop_eval_cons 998 (by norm_num) (by norm_num) ?_ ?_
      · simp only [amortizeStep, effective_rates, get_applicable_interest_rate,
          get_payment_date, recompute_payment, List.insertionSort, List.orderedInsert,
          rate_desc]
        simp
        norm_num [min_def]
      · exact amortizeLoop_eval_nil _ _ _ _ _ _ _ _ _ _ _ (by norm_num)
  · norm_num [final_total_interest]

theorem sub_min_eq_max (u B : ℚ) : B - min u B = max (B - u) 0 := by
  rcases le_total u B with h | h
  · rw [min_eq_left h, max_eq_left (sub_nonneg.mpr h)]
  · rw [min_eq_right h, sub_self, max_eq_right (sub_nonpos.mpr h)]

theorem gs_nonneg {x : ℚ} (hx : 0 ≤ x) (k : ℕ) :
    0 ≤ ∑ i ∈ Finset.range k, x ^ i :=
  Finset.sum_nonneg fun i _ => pow_nonneg hx i

theorem gs_rate_mul {r : ℚ} (k : ℕ) :
    (∑ i ∈ Finset.range k, (1 + r) ^ i) * r = (1 + r) ^ k - 1 := by
  have h := geom_sum_mul (1 + r) k
  rw [show (1 + r) - 1 = r by ring] at h
  exact h

theorem x_mul_gs_le {r : ℚ} (hr : 0 ≤ r) (k : ℕ) :
    (1 + r) * ∑ i ∈ Finset.range k, (1 + r) ^ i
      ≤ ∑ i ∈ Finset.range (k + 1), (1 + r) ^ i := by
  have h := gs_rate_mul (r := r) k
  have hs := gs_nonneg (by linarith : (0:ℚ) ≤ 1 + r) k
  calc (1 + r) * ∑ i ∈ Finset.range k, (1 + r) ^ i
      = (∑ i ∈ Finset.range k, (1 + r) ^ i) * r
          + ∑ i ∈ Finset.range k, (1 + r) ^ i := by ring
    _ = (1 + r) ^ k - 1 + ∑ i ∈ Finset.range k, (1 + r) ^ i := by rw [h]
    _ ≤ (1 + r) ^ k + ∑ i ∈ Finset.range k, (1 + r) ^ i := by linarith
    _ = ∑ i ∈ Finset.range (k + 1), (1 + r) ^ i := (geom_sum_succ').symm

theorem gs_single_le {r : ℚ} (hr : 0 ≤ r) (j : ℕ) (hj : j ≠ 0) :
    (1 + r) ^ (j - 1) ≤ ∑ i ∈ Finset.range j, (1 + r) ^ i := by
  refine Finset.single_le_sum (fun i _ => pow_nonneg (by linarith : (0:ℚ) ≤ 1 + r) i) ?_
  exact Finset.mem_range.mpr (by omega)

theorem recompute_payment_mul_den {remaining_balance monthly_interest_rate : ℚ}
    {remaining_term : ℤ} {monthly_payment : ℚ}
    (hr : 0 < monthly_interest_rate) (hn : 0 < remaining_term)
    (h : recompute_payment remaining_balance monthly_interest_rate remaining_term
      = some monthly_payment) :
    monthly_payment * ((1 + monthly_interest_rate) ^ remaining_term.toNat - 1)
      = remaining_balance *
        (monthly_interest_rate * (1 + monthly_interest_rate) ^ remaining_term.toNat) := by
  have hmp := (recompute_payment_eq_some h).1 hn
  have hx : 1 < 1 + monthly_interest_rate := by linarith
  have hxk : 1 < (1 + monthly_interest_rate) ^ remaining_term.toNat :=
    one_lt_pow₀ hx (by omega)
  have hden : (1 + monthly_interest_rate) ^ remaining_term.toNat - 1 ≠ 0 :=
    ne_of_gt (by linarith)
  rw [hmp, div_mul_cancel₀ _ hden]

theorem recompute_death {remaining_balance monthly_interest_rate : ℚ}
    {remaining_term : ℤ} {monthly_payment : ℚ}
    (hr : 0 < monthly_interest_rate) (hn : 0 < remaining_term)
    (h : recompute_payment remaining_balance monthly_interest_rate remaining_term
      = some monthly_payment) :
    remaining_balance * (1 + monthly_interest_rate) ^ remaining_term.toNat
      = monthly_payment *
        ∑ i ∈ Finset.range remaining_term.toNat, (1 + monthly_interest_rate) ^ i := by
  have hid := recompute_payment_mul_den hr hn h
  have hrS := gs_rate_mul (r := monthly_interest_rate) remaining_term.toNat
  refine mul_right_cancel₀ (ne_of_gt hr) ?_
  calc remaining_balance * (1 + monthly_interest_rate) ^ remaining_term.toNat
        * monthly_interest_rate
      = monthly_payment * ((1 + monthly_interest_rate) ^ remaining_term.toNat - 1) := by
        rw [hid]; ring
    _ = monthly_payment *
          ((∑ i ∈ Finset.range remaining_term.toNat, (1 + monthly_interest_rate) ^ i)
            * monthly_interest_rate) := by rw [hrS]
    _ = monthly_payment *
          (∑ i ∈ Finset.range remaining_term.toNat, (1 + monthly_interest_rate) ^ i)
          * monthly_interest_rate := by ring

theorem recompute_gap {B₁ B₂ monthly_interest_rate : ℚ} {remaining_term : ℤ}
    {p₁ p₂ : ℚ} {j : ℕ}
    (hr : 0 < monthly_interest_rate) (hn : 0 < remaining_term) (hB : B₂ ≤ B₁)
    (h₁ : recompute_payment B₁ monthly_interest_rate remaining_term = some p₁)
    (h₂ : recompute_payment B₂ monthly_interest_rate remaining_term = some p₂)
    (hj : remaining_term.toNat = j + 1) :
    (p₁ - p₂) * ∑ i ∈ Finset.range j, (1 + monthly_interest_rate) ^ i
      ≤ (B₁ - B₂) * (1 + monthly_interest_rate) ^ j := by
  have hid₁ := recompute_payment_mul_den hr hn h₁
  have hid₂ := recompute_payment_mul_den hr hn h₂
  rw [hj] at hid₁ hid₂
  have hq : (p₁ - p₂) * ((1 + monthly_interest_rate) ^ (j + 1) - 1)
      = (B₁ - B₂) * (monthly_interest_rate * (1 + monthly_interest_rate) ^ (j + 1)) := by
    linear_combination hid₁ - hid₂
  have hxpos : (0:ℚ) < 1 + monthly_interest_rate := by linarith
  have hxk : 1 < (1 + monthly_interest_rate) ^ (j + 1) :=
    one_lt_pow₀ (by linarith) (Nat.succ_ne_zero j)
  have hden : 0 < (1 + monthly_interest_rate) ^ (j + 1) - 1 := by linarith
  refine le_of_mul_le_mul_right ?_ hden
  have hkey : (1 + monthly_interest_rate) ^ (j + 1)
        * ∑ i ∈ Finset.range j, (1 + monthly_interest_rate) ^ i
      ≤ (1 + monthly_interest_rate) ^ j
        * ∑ i ∈ Finset.range (j + 1), (1 + monthly_interest_rate) ^ i := by
    have h1 := x_mul_gs_le hr.le j
    calc (1 + monthly_interest_rate) ^ (j + 1)
          * ∑ i ∈ Finset.range j, (1 + monthly_interest_rate) ^ i
        = (1 + monthly_interest_rate) ^ j *
            ((1 + monthly_interest_rate)
              * ∑ i ∈ Finset.range j, (1 + monthly_interest_rate) ^ i) := by ring
      _ ≤ (1 + monthly_interest_rate) ^ j
            * ∑ i ∈ Finset.range (j + 1), (1 + monthly_interest_rate) ^ i :=
          mul_le_mul_of_nonneg_left h1 (pow_nonneg hxpos.le j)
  have hΔr : 0 ≤ (B₁ - B₂) * monthly_interest_rate :=
    mul_nonneg (by linarith) hr.le
  have hrS := gs_rate_mul (r := monthly_interest_rate) (j + 1)
  calc (p₁ - p₂) * (∑ i ∈ Finset.range j, (1 + monthly_interest_rate) ^ i)
        * ((1 + monthly_interest_rate) ^ (j + 1) - 1)
      = ((p₁ - p₂) * ((1 + monthly_interest_rate) ^ (j + 1) - 1))
          * ∑ i ∈ Finset.range j, (1 + monthly_interest_rate) ^ i := by ring
    _ = ((B₁ - B₂) * (monthly_interest_rate * (1 + monthly_interest_rate) ^ (j + 1)))
          * ∑ i ∈ Finset.range j, (1 + monthly_interest_rate) ^ i := by rw [hq]
    _ = ((B₁ - B₂) * monthly_interest_rate) *
          ((1 + monthly_interest_rate) ^ (j + 1)
            * ∑ i ∈ Finset.range j, (1 + monthly_interest_rate) ^ i) := by ring
    _ ≤ ((B₁ - B₂) * monthly_interest_rate) *
          ((1 + monthly_interest_rate) ^ j
            * ∑ i ∈ Finset.range (j + 1), (1 + monthly_interest_rate) ^ i) :=
        mul_le_mul_of_nonneg_left hkey hΔr
    _ = (B₁ - B₂) * (1 + monthly_interest_rate) ^ j *
          ((∑ i ∈ Finset.range (j + 1), (1 + monthly_interest_rate) ^ i)
            * monthly_interest_rate) := by ring
    _ = (B₁ - B₂) * (1 + monthly_interest_rate) ^ j
          * ((1 + monthly_interest_rate) ^ (j + 1) - 1) := by rw [hrS]

theorem pair_step {r e₁ e₂ ovm B₁ B₂ p₁ p₂ B₁' B₂' : ℚ} {j : ℕ}
    (hr : 0 < r) (he₁ : 0 ≤ e₁) (he : e₁ ≤ e₂) (hov : 0 ≤ ovm)
    (_hB₂ : 0 < B₂) (hB : B₂ ≤ B₁)
    (death₁ : B₁ * (1 + r) ^ (j + 1) ≤ p₁ * ∑ i ∈ Finset.range (j + 1), (1 + r) ^ i)
    (death₂ : B₂ * (1 + r) ^ (j + 1) ≤ p₂ * ∑ i ∈ Finset.range (j + 1), (1 + r) ^ i)
    (gap : (p₁ - p₂) * ∑ i ∈ Finset.range j, (1 + r) ^ i ≤ (B₁ - B₂) * (1 + r) ^ j)
    (hB₁' : B₁' = B₁ - (min (p₁ - B₁ * r + e₁) B₁ + ovm))
    (hB₂' : B₂' = B₂ - (min (p₂ - B₂ * r + e₂) B₂ + ovm)) :
    B₂' ≤ B₁' ∧
    (0 < B₂' → ∃ j', j = j' + 1 ∧
      B₁' * (1 + r) ^ (j' + 1) ≤ p₁ * ∑ i ∈ Finset.range (j' + 1), (1 + r) ^ i ∧
      B₂' * (1 + r) ^ (j' + 1) ≤ p₂ * ∑ i ∈ Finset.range (j' + 1), (1 + r) ^ i ∧
      (p₁ - p₂) * ∑ i ∈ Finset.range j', (1 + r) ^ i ≤ (B₁' - B₂') * (1 + r) ^ j') := by
  have hxpos : (0:ℚ) < 1 + r := by linarith
  have hmax₁ : B₁ - min (p₁ - B₁ * r + e₁) B₁ = max (B₁ * (1 + r) - p₁ - e₁) 0 := by
    rw [sub_min_eq_max, show B₁ - (p₁ - B₁ * r + e₁) = B₁ * (1 + r) - p₁ - e₁ by ring]
  have hmax₂ : B₂ - min (p₂ - B₂ * r + e₂) B₂ = max (B₂ * (1 + r) - p₂ - e₂) 0 := by
    rw [sub_min_eq_max, show B₂ - (p₂ - B₂ * r + e₂) = B₂ * (1 + r) - p₂ - e₂ by ring]
  have hB₁'' : B₁' = max (B₁ * (1 + r) - p₁ - e₁) 0 - ovm := by
    rw [hB₁', ← hmax₁]; ring
  have hB₂'' : B₂' = max (B₂ * (1 + r) - p₂ - e₂) 0 - ovm := by
    rw [hB₂', ← hmax₂]; ring
  rcases Nat.eq_zero_or_pos j with hj0 | hjpos
  · -- one period left for both: both balances die this period
    subst hj0
    have hS1 : (∑ i ∈ Finset.range 1, (1 + r) ^ i) = 1 := by
      simp [Finset.sum_range_one]
    rw [pow_one, hS1, mul_one] at death₁ death₂
    have ha₁ : B₁ * (1 + r) - p₁ - e₁ ≤ 0 := by linarith
    have ha₂ : B₂ * (1 + r) - p₂ - e₂ ≤ 0 := by linarith
    rw [hB₁'', hB₂'', max_eq_right ha₁, max_eq_right ha₂]
    refine ⟨le_refl _, ?_⟩
    intro hpos
    exact absurd hpos (by linarith)
  · -- at least two periods left: both balances stay comparable
    have hSj_pos : 0 < ∑ i ∈ Finset.range j, (1 + r) ^ i :=
      geom_sum_pos (by linarith) (by omega)
    have hq : p₁ - p₂ ≤ (B₁ - B₂) * (1 + r) := by
      have hsingle := gs_single_le hr.le j (by omega)
      have hxj : (1 + r) ^ j = (1 + r) * (1 + r) ^ (j - 1) := by
        rw [← pow_succ']
        congr 1
        omega
      have h1 : (B₁ - B₂) * (1 + r) ^ j
          ≤ ((B₁ - B₂) * (1 + r)) * ∑ i ∈ Finset.range j, (1 + r) ^ i := by
        rw [hxj]
        calc (B₁ - B₂) * ((1 + r) * (1 + r) ^ (j - 1))
            = ((B₁ - B₂) * (1 + r)) * (1 + r) ^ (j - 1) := by ring
          _ ≤ ((B₁ - B₂) * (1 + r)) * ∑ i ∈ Finset.range j, (1 + r) ^ i :=
              mul_le_mul_of_nonneg_left hsingle
                (mul_nonneg (by linarith) hxpos.le)
      have h2 : (p₁ - p₂) * ∑ i ∈ Finset.range j, (1 + r) ^ i
          ≤ ((B₁ - B₂) * (1 + r)) * ∑ i ∈ Finset.range j, (1 + r) ^ i :=
        le_trans gap h1
      exact le_of_mul_le_mul_right h2 hSj_pos
    have hmono : B₂ * (1 + r) - p₂ - e₂ ≤ B₁ * (1 + r) - p₁ - e₁ := by nlinarith
    constructor
    · rw [hB₁'', hB₂'']
      have := max_le_max hmono (le_refl (0:ℚ))
      linarith
    · intro hpos
      have ha₂pos : 0 < B₂ * (1 + r) - p₂ - e₂ := by
        by_contra hcon
        push_neg at hcon
        rw [hB₂'', max_eq_right hcon] at hpos
        linarith
      have ha₁pos : 0 < B₁ * (1 + r) - p₁ - e₁ := lt_of_lt_of_le ha₂pos hmono
      have hB₁e : B₁' = B₁ * (1 + r) - p₁ - e₁ - ovm := by
        rw [hB₁'', max_eq_left ha₁pos.le]
      have hB₂e : B₂' = B₂ * (1 + r) - p₂ - e₂ - ovm := by
        rw [hB₂'', max_eq_left ha₂pos.le]
      obtain ⟨j', hj'⟩ : ∃ j', j = j' + 1 := ⟨j - 1, by omega⟩
      subst hj'
      refine ⟨j', rfl, ?_, ?_, ?_⟩
      · -- death bound for run 1
        have hstep : B₁' ≤ B₁ * (1 + r) - p₁ := by rw [hB₁e]; linarith
        have hgs := geom_sum_succ' (x := 1 + r) (n := j' + 1)
        have h1 : B₁' * (1 + r) ^ (j' + 1)
            ≤ (B₁ * (1 + r) - p₁) * (1 + r) ^ (j' + 1) :=
          mul_le_mul_of_nonneg_right hstep (pow_nonneg hxpos.le _)
        have h2 : (B₁ * (1 + r) - p₁) * (1 + r) ^ (j' + 1)
            = B₁ * (1 + r) ^ (j' + 1 + 1) - p₁ * (1 + r) ^ (j' + 1) := by ring
        have h3 : B₁ * (1 + r) ^ (j' + 1 + 1) - p₁ * (1 + r) ^ (j' + 1)
            ≤ p₁ * ∑ i ∈ Finset.range (j' + 1 + 1), (1 + r) ^ i
              - p₁ * (1 + r) ^ (j' + 1) := by linarith
        have h4 : p₁ * ∑ i ∈ Finset.range (j' + 1 + 1), (1 + r) ^ i
              - p₁ * (1 + r) ^ (j' + 1)
            = p₁ * ∑ i ∈ Finset.range (j' + 1), (1 + r) ^ i := by
          rw [hgs]; ring
        linarith
      · -- death bound for run 2
        have hstep : B₂' ≤ B₂ * (1 + r) - p₂ := by rw [hB₂e]; linarith
        have hgs := geom_sum_succ' (x := 1 + r) (n := j' + 1)
        have h1 : B₂' * (1 + r) ^ (j' + 1)
            ≤ (B₂ * (1 + r) - p₂) * (1 + r) ^ (j' + 1) :=
          mul_le_mul_of_nonneg_right hstep (pow_nonneg hxpos.le _)
        have h2 : (B₂ * (1 + r) - p₂) * (1 + r) ^ (j' + 1)
            = B₂ * (1 + r) ^ (j' + 1 + 1) - p₂ * (1 + r) ^ (j' + 1) := by ring
        have h3 : B₂ * (1 + r) ^ (j' + 1 + 1) - p₂ * (1 + r) ^ (j' + 1)
            ≤ p₂ * ∑ i ∈ Finset.range (j' + 1 + 1), (1 + r) ^ i
              - p₂ * (1 + r) ^ (j' + 1) := by linarith
        have h4 : p₂ * ∑ i ∈ Finset.range (j' + 1 + 1), (1 + r) ^ i
              - p₂ * (1 + r) ^ (j' + 1)
            = p₂ * ∑ i ∈ Finset.range (j' + 1), (1 + r) ^ i := by
          rw [hgs]; ring
        linarith
      · -- gap bound
        have hΔ' : (B₁ - B₂) * (1 + r) - (p₁ - p₂) ≤ B₁' - B₂' := by
          rw [hB₁e, hB₂e]
          linarith
        have hgs := geom_sum_succ' (x := 1 + r) (n := j')
        have h1 : ((B₁ - B₂) * (1 + r) - (p₁ - p₂)) * (1 + r) ^ j'
            ≤ (B₁' - B₂') * (1 + r) ^ j' :=
          mul_le_mul_of_nonneg_right hΔ' (pow_nonneg hxpos.le _)
        have h2 : ((B₁ - B₂) * (1 + r) - (p₁ - p₂)) * (1 + r) ^ j'
            = (B₁ - B₂) * (1 + r) ^ (j' + 1) - (p₁ - p₂) * (1 + r) ^ j' := by ring
        have h3 : (p₁ - p₂) * ∑ i ∈ Finset.range (j' + 1), (1 + r) ^ i
            ≤ (B₁ - B₂) * (1 + r) ^ (j' + 1) := gap
        have h4 : (p₁ - p₂) * ∑ i ∈ Finset.range j', (1 + r) ^ i
            = (p₁ - p₂) * ∑ i ∈ Finset.range (j' + 1), (1 + r) ^ i
              - (p₁ - p₂) * (1 + r) ^ j' := by
          rw [hgs]; ring
        linarith

theorem get_applicable_mem {date : ℤ} {interest_rates : List RateEntry} {ρ : ℚ}
    (h : get_applicable_interest_rate date interest_rates = some ρ) :
    ∃ en ∈ interest_rates, en.rate = ρ := by
  simp only [get_applicable_interest_rate] at h
  rcases hf : (interest_rates.insertionSort rate_desc).find?
      (fun rate_info => decide (rate_info.start_date ≤ date)) with _ | e
  · rw [hf] at h
    simp only [Option.map_eq_some'] at h
    obtain ⟨e, hlast, hrate⟩ := h
    obtain ⟨hne, heq⟩ := List.mem_getLast?_eq_getLast (Option.mem_def.mpr hlast)
    have hmem : e ∈ interest_rates.insertionSort rate_desc :=
      heq ▸ List.getLast_mem hne
    exact ⟨e, (List.perm_insertionSort rate_desc interest_rates).mem_iff.mp hmem, hrate⟩
  · rw [hf] at h
    simp only [Option.some.injEq] at h
    have hmem : e ∈ interest_rates.insertionSort rate_desc :=
      List.mem_of_find?_eq_some hf
    exact ⟨e, (List.perm_insertionSort rate_desc interest_rates).mem_iff.mp hmem, h⟩

theorem getLast?_elim_cons (rec : PaymentRecord) (l : List PaymentRecord) (d : ℚ) :
    ((rec :: l).getLast?).elim d (fun x => x.total_interest)
      = (l.getLast?).elim rec.total_interest (fun x => x.total_interest) := by
  cases l with
  | nil => rfl
  | cons b t =>
    rw [List.getLast?_cons_cons]
    rcases hlast : (b :: t).getLast? with _ | y
    · exact absurd hlast (by simp [List.getLast?_isSome])
    · rfl

theorem amortizeLoop_TI_mono {interest_rates : List RateEntry}
    {total_months start_date : ℤ} {extra_payment : ℚ} {overpayments : ℕ → ℚ}
    (hrates : ∀ en ∈ interest_rates, 0 < en.rate) :
    ∀ (fuel month_counter : ℕ) (remaining_balance total_interest : ℚ)
      (prev_monthly_payment last_rate : Option ℚ) (s : List PaymentRecord),
    amortizeLoop interest_rates total_months start_date extra_payment overpayments
      fuel month_counter remaining_balance total_interest prev_monthly_payment last_rate
      = some s →
    total_interest ≤ (s.getLast?).elim total_interest (fun rec => rec.total_interest) := by
  intro fuel
  induction fuel with
  | zero =>
    intro _ _ _ _ _ s h
    rw [amortizeLoop_zero] at h
    simp only [Option.some.injEq] at h
    subst h
    simp
  | succ n ih =>
    intro month_counter remaining_balance total_interest prev_monthly_payment last_rate s h
    rcases amortizeLoop_succ_inv h with ⟨_, hnil⟩ | ⟨hB, rec, rest, hstep, hrest, hs⟩
    · subst hnil
      simp
    · subst hs
      obtain ⟨hga, _, _, hint, _, _, hTIrec, _, _, _, _⟩ := amortizeStep_some_spec hstep
      have hρ : 0 < rec.rate := by
        obtain ⟨en, hen, hrfl⟩ := get_applicable_mem hga
        exact hrfl ▸ hrates en hen
      have hstep_ti : total_interest ≤ rec.total_interest := by
        rw [hTIrec, hint]
        nlinarith
      rw [getLast?_elim_cons]
      exact le_trans hstep_ti (ih _ _ _ _ _ _ hrest)

theorem amortizeLoop_extra_payment_pair {interest_rates : List RateEntry}
    {total_months start_date : ℤ} {e₁ e₂ : ℚ} {overpayments : ℕ → ℚ}
    (hrates : ∀ en ∈ interest_rates, 0 < en.rate)
    (he₁ : 0 ≤ e₁) (he : e₁ ≤ e₂) (hov : ∀ m, 0 ≤ overpayments m) :
    ∀ (fuel month_counter : ℕ) (B₁ B₂ TI₁ TI₂ : ℚ)
      (prev₁ prev₂ last_rate : Option ℚ) (s₁ s₂ : List PaymentRecord),
    amortizeLoop interest_rates total_months start_date e₁ overpayments
      fuel month_counter B₁ TI₁ prev₁ last_rate = some s₁ →
    amortizeLoop interest_rates total_months start_date e₂ overpayments
      fuel month_counter B₂ TI₂ prev₂ last_rate = some s₂ →
    B₂ ≤ B₁ → TI₂ ≤ TI₁ →
    extra_payment_pair_state B₁ B₂ prev₁ prev₂ last_rate →
    s₂.length ≤ s₁.length ∧
      (s₂.getLast?).elim TI₂ (fun rec => rec.total_interest)
        ≤ (s₁.getLast?).elim TI₁ (fun rec => rec.total_interest) := by
  intro fuel
  induction fuel with
  | zero =>
    intro _ _ _ _ _ _ _ _ s₁ s₂ h₁ h₂ _ hTI _
    rw [amortizeLoop_zero] at h₁ h₂
    simp only [Option.some.injEq] at h₁ h₂
    subst h₁
    subst h₂
    simpa using hTI
  | succ n ih =>
    intro month_counter B₁ B₂ TI₁ TI₂ prev₁ prev₂ last_rate s₁ s₂ h₁ h₂ hB hTI hstate
    by_cases hB₂ : 0 < B₂
    · have hB₁ : 0 < B₁ := lt_of_lt_of_le hB₂ hB
      rcases amortizeLoop_succ_inv h₁ with ⟨hc, _⟩ | ⟨_, rec₁, rest₁, hstep₁, hrest₁, hs₁⟩
      · exact absurd hB₁ hc
      rcases amortizeLoop_succ_inv h₂ with ⟨hc, _⟩ | ⟨_, rec₂, rest₂, hstep₂, hrest₂, hs₂⟩
      · exact absurd hB₂ hc
      subst hs₁
      subst hs₂
      obtain ⟨hga₁, _, _, hint₁, hprin₁, _, hTIrec₁, hbal₁, _, hrecomp₁, hreuse₁⟩ :=
        amortizeStep_some_spec hstep₁
      obtain ⟨hga₂, _, _, hint₂, hprin₂, _, hTIrec₂, hbal₂, _, hrecomp₂, hreuse₂⟩ :=
        amortizeStep_some_spec hstep₂
      have hrate_eq : rec₂.rate = rec₁.rate := by
        rw [hga₁] at hga₂
        exact (Option.some.injEq _ _ ▸ hga₂).symm ▸ rfl
      have hρpos : 0 < rec₁.rate := by
        obtain ⟨en, hen, hrfl⟩ := get_applicable_mem hga₁
        exact hrfl ▸ hrates en hen
      have hr : 0 < rec₁.rate / 100 / 12 := by positivity
      rw [hrate_eq] at hint₂
      have hTI' : rec₂.total_interest ≤ rec₁.total_interest := by
        rw [hTIrec₁, hTIrec₂, hint₁, hint₂]
        nlinarith
      have hbal₁' : rec₁.balance = B₁ -
          (min (rec₁.monthly_payment - B₁ * (rec₁.rate / 100 / 12) + e₁) B₁
            + overpayments (month_counter + 1)) := by
        rw [hbal₁, hprin₁, hint₁]
      have hbal₂' : rec₂.balance = B₂ -
          (min (rec₂.monthly_payment - B₂ * (rec₁.rate / 100 / 12) + e₂) B₂
            + overpayments (month_counter + 1)) := by
        rw [hbal₂, hprin₂, hint₂]
      -- main case split: recompute vs reuse
      by_cases hcond₁ : (prev₁ = none ∨ some rec₁.rate ≠ last_rate)
      · -- both runs recompute
        have hcond₂ : (prev₂ = none ∨ some rec₂.rate ≠ last_rate) := by
          rcases hstate with ⟨_, hp₂⟩ | ⟨p₁, p₂, ρ, j, hp₁, hp₂, hlr, _⟩
          · exact Or.inl hp₂
          · rcases hcond₁ with hnone | hne
            · rw [hp₁] at hnone
              exact absurd hnone (by simp)
            · exact Or.inr (by rwa [hrate_eq])
        have hmp₁ := hrecomp₁ hcond₁
        have hmp₂ := hrecomp₂ hcond₂
        rw [hrate_eq] at hmp₂
        by_cases hn : 0 < total_months - ((month_counter + 1 : ℕ) : ℤ) + 1
        · -- positive remaining term: establish the invariant, then step
          obtain ⟨j, hj⟩ : ∃ j,
              (total_months - ((month_counter + 1 : ℕ) : ℤ) + 1).toNat = j + 1 :=
            ⟨(total_months - ((month_counter + 1 : ℕ) : ℤ) + 1).toNat - 1, by omega⟩
          have death₁ : B₁ * (1 + rec₁.rate / 100 / 12) ^ (j + 1)
              ≤ rec₁.monthly_payment *
                ∑ i ∈ Finset.range (j + 1), (1 + rec₁.rate / 100 / 12) ^ i := by
            have := recompute_death hr hn hmp₁
            rw [hj] at this
            exact le_of_eq this
          have death₂ : B₂ * (1 + rec₁.rate / 100 / 12) ^ (j + 1)
              ≤ rec₂.monthly_payment *
                ∑ i ∈ Finset.range (j + 1), (1 + rec₁.rate / 100 / 12) ^ i := by
            have := recompute_death hr hn hmp₂
            rw [hj] at this
            exact le_of_eq this
          have gap := recompute_gap hr hn hB hmp₁ hmp₂ hj
          obtain ⟨hout, hinv'⟩ := pair_step hr he₁ he (hov (month_counter + 1)) hB₂ hB
            death₁ death₂ gap hbal₁' hbal₂'
          -- common tail
          by_cases hB₂' : 0 < rec₂.balance
          · obtain ⟨j', _, d₁, d₂, g⟩ := hinv' hB₂'
            have hstate' : extra_payment_pair_state rec₁.balance rec₂.balance
                (some rec₁.monthly_payment) (some rec₂.monthly_payment)
                (some rec₁.rate) :=
              Or.inr ⟨rec₁.monthly_payment, rec₂.monthly_payment, rec₁.rate, j',
                rfl, rfl, rfl, hρpos, d₁, d₂, g⟩
            rw [hrate_eq] at hrest₂
            obtain ⟨hlen, hti⟩ := ih (month_counter + 1) rec₁.balance rec₂.balance
              rec₁.total_interest rec₂.total_interest
              (some rec₁.monthly_payment) (some rec₂.monthly_payment)
              (some rec₁.rate) rest₁ rest₂ hrest₁ hrest₂ hout hTI' hstate'
            refine ⟨Nat.succ_le_succ hlen, ?_⟩
            rw [getLast?_elim_cons, getLast?_elim_cons]
            exact hti
          · have hrest₂nil : rest₂ = [] := by
              rw [amortizeLoop_eval_nil _ _ _ _ _ _ _ _ _ _ _ hB₂'] at hrest₂
              simp only [Option.some.injEq] at hrest₂
              exact hrest₂.symm
            subst hrest₂nil
            refine ⟨by simp, ?_⟩
            rw [getLast?_elim_cons, getLast?_elim_cons]
            have hmono := amortizeLoop_TI_mono hrates n (month_counter + 1)
              rec₁.balance rec₁.total_interest (some rec₁.monthly_payment)
              (some rec₁.rate) rest₁ hrest₁
            simp only [List.getLast?_nil, Option.elim_none]
            exact le_trans hTI' hmono
        · -- non-positive remaining term: both balances die this period
          have hmp₁e : rec₁.monthly_payment = B₁ * (1 + rec₁.rate / 100 / 12) :=
            (recompute_payment_eq_some hmp₁).2 hn
          have hmp₂e : rec₂.monthly_payment = B₂ * (1 + rec₁.rate / 100 / 12) :=
            (recompute_payment_eq_some hmp₂).2 hn
          have hbal₁z : rec₁.balance = -(overpayments (month_counter + 1)) := by
            rw [hbal₁', hmp₁e,
              show B₁ * (1 + rec₁.rate / 100 / 12) - B₁ * (rec₁.rate / 100 / 12) + e₁
                = B₁ + e₁ by ring,
              min_eq_right (by linarith)]
            ring
          have hbal₂z : rec₂.balance = -(overpayments (month_counter + 1)) := by
            rw [hbal₂', hmp₂e,
              show B₂ * (1 + rec₁.rate / 100 / 12) - B₂ * (rec₁.rate / 100 / 12) + e₂
                = B₂ + e₂ by ring,
              min_eq_right (by linarith)]
            ring
          have hrest₁nil : rest₁ = [] := by
            rw [amortizeLoop_eval_nil _ _ _ _ _ _ _ _ _ _ _
              (by rw [hbal₁z]; have := hov (month_counter + 1); linarith)] at hrest₁
            simp only [Option.some.injEq] at hrest₁
            exact hrest₁.symm
          have hrest₂nil : rest₂ = [] := by
            rw [amortizeLoop_eval_nil _ _ _ _ _ _ _ _ _ _ _
              (by rw [hbal₂z]; have := hov (month_counter + 1); linarith)] at hrest₂
            simp only [Option.some.injEq] at hrest₂
            exact hrest₂.symm
          subst hrest₁nil
          subst hrest₂nil
          refine ⟨le_refl _, ?_⟩
          rw [getLast?_elim_cons, getLast?_elim_cons]
          simpa using hTI'
      · -- both runs reuse the previous payment
        have hstate' : ∃ p₁ p₂ ρ j, prev₁ = some p₁ ∧ prev₂ = some p₂ ∧
            last_rate = some ρ ∧ 0 < ρ ∧
            B₁ * (1 + ρ / 100 / 12) ^ (j + 1)
              ≤ p₁ * ∑ i ∈ Finset.range (j + 1), (1 + ρ / 100 / 12) ^ i ∧
            B₂ * (1 + ρ / 100 / 12) ^ (j + 1)
              ≤ p₂ * ∑ i ∈ Finset.range (j + 1), (1 + ρ / 100 / 12) ^ i ∧
            (p₁ - p₂) * ∑ i ∈ Finset.range j, (1 + ρ / 100 / 12) ^ i
              ≤ (B₁ - B₂) * (1 + ρ / 100 / 12) ^ j := by
          rcases hstate with ⟨hp₁, _⟩ | hsome
          · exact absurd (Or.inl hp₁) hcond₁
          · exact hsome
        obtain ⟨p₁, p₂, ρ, j, hp₁, hp₂, hlr, _, death₁, death₂, gap⟩ := hstate'
        push_neg at hcond₁
        obtain ⟨hp₁ne, hlr_eq⟩ := hcond₁
        have hcond₂ : ¬ (prev₂ = none ∨ some rec₂.rate ≠ last_rate) := by
          push_neg
          exact ⟨by rw [hp₂]; simp, by rwa [hrate_eq]⟩
        have hpv₁ := hreuse₁ (by push_neg; exact ⟨hp₁ne, hlr_eq⟩)
        have hpv₂ := hreuse₂ hcond₂
        have hp₁eq : p₁ = rec₁.monthly_payment := by
          rw [hp₁] at hpv₁
          exact (Option.some.injEq _ _ ▸ hpv₁)
        have hp₂eq : p₂ = rec₂.monthly_payment := by
          rw [hp₂] at hpv₂
          exact (Option.some.injEq _ _ ▸ hpv₂)
        have hρ_eq : ρ = rec₁.rate := by
          rw [hlr] at hlr_eq
          exact (Option.some.injEq _ _ ▸ hlr_eq).symm
        rw [hp₁eq, hρ_eq] at death₁
        rw [hp₂eq, hρ_eq] at death₂
        rw [hp₁eq, hp₂eq, hρ_eq] at gap
        obtain ⟨hout, hinv'⟩ := pair_step hr he₁ he (hov (month_counter + 1)) hB₂ hB
          death₁ death₂ gap hbal₁' hbal₂'
        by_cases hB₂' : 0 < rec₂.balance
        · obtain ⟨j', _, d₁, d₂, g⟩ := hinv' hB₂'
          have hstate'' : extra_payment_pair_state rec₁.balance rec₂.balance
              (some rec₁.monthly_payment) (some rec₂.monthly_payment)
              (some rec₁.rate) :=
            Or.inr ⟨rec₁.monthly_payment, rec₂.monthly_payment, rec₁.rate, j',
              rfl, rfl, rfl, hρpos, d₁, d₂, g⟩
          rw [hrate_eq] at hrest₂
          obtain ⟨hlen, hti⟩ := ih (month_counter + 1) rec₁.balance rec₂.balance
            rec₁.total_interest rec₂.total_interest
            (some rec₁.monthly_payment) (some rec₂.monthly_payment)
            (some rec₁.rate) rest₁ rest₂ hrest₁ hrest₂ hout hTI' hstate''
          refine ⟨Nat.succ_le_succ hlen, ?_⟩
          rw [getLast?_elim_cons, getLast?_elim_cons]
          exact hti
        · have hrest₂nil : rest₂ = [] := by
            rw [amortizeLoop_eval_nil _ _ _ _ _ _ _ _ _ _ _ hB₂'] at hrest₂
            simp only [Option.some.injEq] at hrest₂
            exact hrest₂.symm
          subst hrest₂nil
          refine ⟨by simp, ?_⟩
          rw [getLast?_elim_cons, getLast?_elim_cons]
          have hmono := amortizeLoop_TI_mono hrates n (month_counter + 1)
            rec₁.balance rec₁.total_interest (some rec₁.monthly_payment)
            (some rec₁.rate) rest₁ hrest₁
          simp only [List.getLast?_nil, Option.elim_none]
          exact le_trans hTI' hmono
    · -- run 2 has already terminated
      have hs₂nil : s₂ = [] := by
        rw [amortizeLoop_succ, if_neg hB₂] at h₂
        simp only [Option.some.injEq] at h₂
        exact h₂.symm
      subst hs₂nil
      refine ⟨Nat.zero_le _, ?_⟩
      have hmono := amortizeLoop_TI_mono hrates (n + 1) month_counter B₁ TI₁
        prev₁ last_rate s₁ h₁
      simp only [List.getLast?_nil, Option.elim_none]
      exact le_trans hTI hmono

/-- C9 (amended): with a non-empty rate schedule all of whose rates are
positive (in addition to the claim's non-negative extra payments), raising the
recurring extra payment (all else fixed) never increases the number of periods
in the returned schedule and never increases the total interest paid. With a
negative rate the second part fails, so the original claim needs the
rate-positivity restriction. -/
theorem claim_c9_extra_payment_monotone (loan_amount interest_rate : ℚ)
    (total_months start_date : ℤ) (e₁ e₂ : ℚ) (overpayments : ℕ → ℚ)
    (interest_rates : Option (List RateEntry)) (s₁ s₂ : List PaymentRecord)
    (h₁ : calculate_amortization loan_amount interest_rate total_months start_date
      e₁ overpayments interest_rates = some s₁)
    (h₂ : calculate_amortization loan_amount interest_rate total_months start_date
      e₂ overpayments interest_rates = some s₂)
    (hrates : ∀ en ∈ effective_rates interest_rate start_date interest_rates, 0 < en.rate)
    (he₁ : 0 ≤ e₁) (he : e₁ ≤ e₂) (hov : ∀ m, 0 ≤ overpayments m) :
    s₂.length ≤ s₁.length ∧ final_total_interest s₂ ≤ final_total_interest s₁ := by
  have h := amortizeLoop_extra_payment_pair hrates he₁ he hov 1000 0
    loan_amount loan_amount 0 0 none none none s₁ s₂ h₁ h₂ (le_refl _) (le_refl _)
    (Or.inl ⟨rfl, rfl⟩)
  simpa [final_total_interest] using h

theorem claim_c9_witness :
    calculate_amortization 100 1200 1 0 0 (fun _ => 0) none = some
      [{ month := 1, date := 0, rate := 1200, payment := 200, principal := 100,
         interest := 100, total_interest := 100, balance := 0, overpayment := 0,
         monthly_payment := 200 }] ∧
    calculate_amortization 100 1200 1 0 10 (fun _ => 0) none = some
      [{ month := 1, date := 0, rate := 1200, payment := 200, principal := 100,
         interest := 100, total_interest := 100, balance := 0, overpayment := 0,
         monthly_payment := 200 }] ∧
    ([({ month := 1, date := 0, rate := 1200, payment := 200, principal := 100,
         interest := 100, total_interest := 100, balance := 0, overpayment := 0,
         monthly_payment := 200 } : PaymentRecord)].length
      ≤ [({ month := 1, date := 0, rate := 1200, payment := 200, principal := 100,
            interest := 100, total_interest := 100, balance := 0, overpayment := 0,
            monthly_payment := 200 } : PaymentRecord)].length ∧
     final_total_interest
      [{ month := 1, date := 0, rate := 1200, payment := 200, principal := 100,
         interest := 100, total_interest := 100, balance := 0, overpayment := 0,
         monthly_payment := 200 }]
      ≤ final_total_interest
      [{ month := 1, date := 0, rate := 1200, payment := 200, principal := 100,
         interest := 100, total_interest := 100, balance := 0, overpayment := 0,
         monthly_payment := 200 }]) := by
  have hrun₁ : calculate_amortization 100 1200 1 0 0 (fun _ => 0) none = some
      [{ month := 1, date := 0, rate := 1200, payment := 200, principal := 100,
         interest := 100, total_interest := 100, balance := 0, overpayment := 0,
         monthly_payment := 200 }] := by
    unfold calculate_amortization
    refine amortizeLoop_eval_cons 999 (by norm_num) (by norm_num) ?_ ?_
    · norm_num [amortizeStep, effective_rates, get_applicable_interest_rate, get_payment_date,
        recompute_payment, List.insertionSort, List.orderedInsert, rate_desc, min_def,
        show (1:ℤ).toNat = 1 from rfl]
    · exact amortizeLoop_eval_nil _ _ _ _ _ _ _ _ _ _ _ (by norm_num)
  have hrun₂ : calculate_amortization 100 1200 1 0 10 (fun _ => 0) none = some
      [{ month := 1, date := 0, rate := 1200, payment := 200, principal := 100,
         interest := 100, total_interest := 100, balance := 0, overpayment := 0,
         monthly_payment := 200 }] := by
    unfold calculate_amortization
    refine amortizeLoop_eval_cons 999 (by norm_num) (by norm_num) ?_ ?_
    · norm_num [amortizeStep, effective_rates, get_applicable_interest_rate, get_payment_date,
        recompute_payment, List.insertionSort, List.orderedInsert, rate_desc, min_def,
        show (1:ℤ).toNat = 1 from rfl]
    · exact amortizeLoop_eval_nil _ _ _ _ _ _ _ _ _ _ _ (by norm_num)
  refine ⟨hrun₁, hrun₂,
    claim_c9_extra_payment_monotone 100 1200 1 0 0 10 (fun _ => 0) none _ _ hrun₁ hrun₂
      ?_ (le_refl 0) (by norm_num) (fun _ => le_refl 0)⟩
  intro en hen
  simp only [effective_rates, List.mem_singleton] at hen
  subst hen
  norm_num
